import Mathlib

set_option maxRecDepth 8000

/-!
Verification development for the website-snapshot archiver
(`Snapshot_HTML_Website_to_Internet_Archive_v1.py`).

The Python source is shallowly embedded below.  Pure string processing is
translated to executable Lean functions over `List Char`; the external
collaborators (the `requests` fetch layer, `hashlib.sha256`, and the
filesystem) are modelled as explicit function parameters and explicit state
records.  The BeautifulSoup `html.parser` round trip used by
`_normalize_html_for_comparison` and `_rewrite_html` is modelled by a small
permissive tokenizer/serializer that reproduces the library's behaviour on
the well-formed documents exercised here (lower-cased tag and attribute
names, double-quoted attribute values, void elements serialized as
`<name .../>`, basic character-reference decoding, minimal escaping).
-/

/-- Split a character list at the first occurrence of `pat`, returning the
part before the occurrence and the part after it. -/
def splitAtSub (pat : List Char) : List Char → Option (List Char × List Char)
  | [] => if pat.isEmpty then some ([], []) else none
  | c :: rest =>
    if pat.isPrefixOf (c :: rest) then some ([], (c :: rest).drop pat.length)
    else
      match splitAtSub pat rest with
      | some (a, b) => some (c :: a, b)
      | none => none

/-- Decode the basic HTML character references, as `html.parser` does with
`convert_charrefs=True`; unknown `&` sequences are kept verbatim. -/
def decodeEntitiesGo : Nat → List Char → List Char
  | 0, cs => cs
  | fuel + 1, cs =>
    match cs with
    | [] => []
    | c :: rest =>
      if c == '&' then
        if "amp;".data.isPrefixOf rest then '&' :: decodeEntitiesGo fuel (rest.drop 4)
        else if "lt;".data.isPrefixOf rest then '<' :: decodeEntitiesGo fuel (rest.drop 3)
        else if "gt;".data.isPrefixOf rest then '>' :: decodeEntitiesGo fuel (rest.drop 3)
        else if "quot;".data.isPrefixOf rest then '"' :: decodeEntitiesGo fuel (rest.drop 5)
        else if "#39;".data.isPrefixOf rest then '\x27' :: decodeEntitiesGo fuel (rest.drop 4)
        else c :: decodeEntitiesGo fuel rest
      else c :: decodeEntitiesGo fuel rest

def decodeEntities (cs : List Char) : List Char := decodeEntitiesGo cs.length cs

/-- Flat token view of the BeautifulSoup tag tree: the serialization of the
tree is the in-order concatenation of these tokens, and the tag passes of the
source only inspect one tag (name plus attribute map) at a time. -/
inductive Tok where
  | text (s : String)
  | startTag (name : String) (attrs : List (String × String))
  | endTag (name : String)
deriving DecidableEq, Repr

def isTagNameChar (c : Char) : Bool := c.isAlphanum || c == '-'

def lowerStr (cs : List Char) : List Char := cs.map Char.toLower

def isAttrNameChar (c : Char) : Bool :=
  !(c.isWhitespace) && !(c == '=') && !(c == '>') && !(c == '/')

/-- Attribute scanning of the `html.parser` model: collects
`name="value"`, `name='value'`, `name=value` and bare-name attributes until
`>` or `/>`.  Returns the attributes, whether the tag was self-closing, and
the remaining input. -/
def parseAttrsGo : Nat → List (String × String) → List Char →
    List (String × String) × Bool × List Char
  | 0, acc, cs => (acc, false, cs)
  | fuel + 1, acc, cs =>
    match cs with
    | [] => (acc, false, [])
    | c :: rest =>
      if c.isWhitespace then parseAttrsGo fuel acc rest
      else if c == '>' then (acc, false, rest)
      else if c == '/' then
        match rest with
        | '>' :: tail => (acc, true, tail)
        | _ => parseAttrsGo fuel acc rest
      else
        let nm := (c :: rest).takeWhile isAttrNameChar
        let r1 := (c :: rest).drop nm.length
        let r2 := r1.dropWhile (fun ch => ch.isWhitespace)
        match r2 with
        | '=' :: r3 =>
          let r4 := r3.dropWhile (fun ch => ch.isWhitespace)
          match r4 with
          | '"' :: r5 =>
            let v := r5.takeWhile (fun ch => !(ch == '"'))
            parseAttrsGo fuel (acc ++ [(⟨lowerStr nm⟩, ⟨decodeEntities v⟩)])
              ((r5.drop v.length).drop 1)
          | '\x27' :: r5 =>
            let v := r5.takeWhile (fun ch => !(ch == '\x27'))
            parseAttrsGo fuel (acc ++ [(⟨lowerStr nm⟩, ⟨decodeEntities v⟩)])
              ((r5.drop v.length).drop 1)
          | _ =>
            let v := r4.takeWhile (fun ch => !(ch.isWhitespace) && !(ch == '>'))
            parseAttrsGo fuel (acc ++ [(⟨lowerStr nm⟩, ⟨decodeEntities v⟩)])
              (r4.drop v.length)
        | _ => parseAttrsGo fuel (acc ++ [(⟨lowerStr nm⟩, "")]) r1

/-- The HTML void elements, which BeautifulSoup serializes as `<name .../>`. -/
def voidNames : List String :=
  ["area", "base", "br", "col", "embed", "hr", "img", "input", "link",
   "meta", "param", "source", "track", "wbr"]

/-- Tokenizer modelling `BeautifulSoup(html, "html.parser")` on well-formed
input: text runs, start tags with attributes, end tags; a `<` that does not
open a tag is literal text.  A self-closing non-void tag becomes an empty
element (start immediately followed by end), as `html.parser` reports it. -/
def parseToksGo : Nat → List Char → List Tok
  | 0, _ => []
  | fuel + 1, cs =>
    match cs with
    | [] => []
    | '<' :: rest =>
      match rest with
      | [] => [Tok.text "<"]
      | '/' :: r1 =>
        let nm := r1.takeWhile isTagNameChar
        if nm.isEmpty then Tok.text "<" :: parseToksGo fuel rest
        else
          let r2 := (r1.drop nm.length).dropWhile (fun ch => !(ch == '>'))
          Tok.endTag ⟨lowerStr nm⟩ :: parseToksGo fuel (r2.drop 1)
      | c :: _ =>
        if c.isAlpha then
          let nm := rest.takeWhile isTagNameChar
          let r := parseAttrsGo rest.length [] (rest.drop nm.length)
          let name : String := ⟨lowerStr nm⟩
          (if r.2.1 && !(voidNames.contains name) then
            [Tok.startTag name r.1, Tok.endTag name]
          else [Tok.startTag name r.1]) ++ parseToksGo fuel r.2.2
        else Tok.text "<" :: parseToksGo fuel rest
    | _ :: _ =>
      let txt := cs.takeWhile (fun ch => !(ch == '<'))
      Tok.text ⟨decodeEntities txt⟩ :: parseToksGo fuel (cs.drop txt.length)

def parseHtmlToks (html : String) : List Tok := parseToksGo html.data.length html.data

/-- Minimal-formatter escaping of text nodes (`&`, `<`, `>`). -/
def escTextChar (c : Char) : List Char :=
  if c == '&' then "&amp;".data
  else if c == '<' then "&lt;".data
  else if c == '>' then "&gt;".data
  else [c]

/-- Minimal-formatter escaping of attribute values (`&`, `<`, `>`, `"`). -/
def escAttrValChar (c : Char) : List Char :=
  if c == '&' then "&amp;".data
  else if c == '<' then "&lt;".data
  else if c == '>' then "&gt;".data
  else if c == '"' then "&quot;".data
  else [c]

def serializeAttrs (attrs : List (String × String)) : List Char :=
  (attrs.map (fun kv =>
    ' ' :: (kv.1.data ++ '=' :: '"' :: ((kv.2.data.map escAttrValChar).flatten ++ ['"'])))).flatten

/-- `str(soup)` on one token: text escaped minimally, start tags with
double-quoted attributes, void elements with a `/>` close. -/
def serializeTok : Tok → List Char
  | Tok.text s => (s.data.map escTextChar).flatten
  | Tok.startTag n attrs =>
    '<' :: (n.data ++ serializeAttrs attrs ++
      (if voidNames.contains n then ['/', '>'] else ['>']))
  | Tok.endTag n => '<' :: '/' :: (n.data ++ ['>'])

def serializeToks (ts : List Tok) : String := ⟨(ts.map serializeTok).flatten⟩

/-- Character class `[^"\'>\s]` of the tracking-parameter patterns. -/
def isTrackValChar (c : Char) : Bool :=
  !(c == '"') && !(c == '\x27') && !(c == '>') && !(c.isWhitespace)

/-- `re.sub(pat + r'[^"\'>\s]+', '', s)` for a literal pattern head `pat`
(one of `?_gl=`, `&_gl=`, `?_ga=`, `&_ga=`): left-to-right scan, greedy run
of at least one allowed character, match removed, scan resumes after the
match. -/
def stripParamGo (pat : List Char) : Nat → List Char → List Char
  | 0, cs => cs
  | fuel + 1, cs =>
    match cs with
    | [] => []
    | c :: rest =>
      if pat.isPrefixOf (c :: rest) then
        let run := ((c :: rest).drop pat.length).takeWhile isTrackValChar
        if run.isEmpty then c :: stripParamGo pat fuel rest
        else stripParamGo pat fuel (((c :: rest).drop pat.length).drop run.length)
      else c :: stripParamGo pat fuel rest

def stripParam (pat : String) (s : String) : String :=
  ⟨stripParamGo pat.data s.data.length s.data⟩

/-- The four tracking-parameter substitutions applied to one attribute value,
in source order: `\?_gl=`, `&_gl=`, `\?_ga=`, `&_ga=`. -/
def stripTrackingParams (s : String) : String :=
  stripParam "&_ga=" (stripParam "?_ga=" (stripParam "&_gl=" (stripParam "?_gl=" s)))

def attrLookup (attrs : List (String × String)) (k : String) : Option String :=
  (attrs.find? (fun kv => kv.1 == k)).map (fun kv => kv.2)

/-- `tag[k] = v`: overwrite in place when the key exists (dict insertion
order preserved), append otherwise. -/
def attrSet (attrs : List (String × String)) (k v : String) : List (String × String) :=
  if (attrs.find? (fun kv => kv.1 == k)).isSome then
    attrs.map (fun kv => if kv.1 == k then (k, v) else kv)
  else attrs ++ [(k, v)]

/-- `soup.find_all(['a', 'link', 'script', 'img'], href=True)` pass: strip
the tracking parameters from the `href` value of the matched tags. -/
def stripHrefTok (t : Tok) : Tok :=
  match t with
  | Tok.startTag n attrs =>
    if n == "a" || n == "link" || n == "script" || n == "img" then
      match attrLookup attrs "href" with
      | some v => Tok.startTag n (attrSet attrs "href" (stripTrackingParams v))
      | none => t
    else t
  | _ => t

/-- `soup.find_all(['img', 'script'], src=True)` pass: strip the tracking
parameters from the `src` value of the matched tags. -/
def stripSrcTok (t : Tok) : Tok :=
  match t with
  | Tok.startTag n attrs =>
    if n == "img" || n == "script" then
      match attrLookup attrs "src" with
      | some v => Tok.startTag n (attrSet attrs "src" (stripTrackingParams v))
      | none => t
    else t
  | _ => t

/-- `re.sub(r"window\.__CF\$cv\$params=\{[^}]+\}", "window.__CF$cv$params={[REMOVED]}", s)`. -/
def subCfParamsGo : Nat → List Char → List Char
  | 0, cs => cs
  | fuel + 1, cs =>
    match cs with
    | [] => []
    | c :: rest =>
      if "window.__CF$cv$params=\x7b".data.isPrefixOf (c :: rest) then
        let afterM := (c :: rest).drop 23
        let run := afterM.takeWhile (fun ch => !(ch == '\x7d'))
        if run.isEmpty then c :: subCfParamsGo fuel rest
        else
          match afterM.drop run.length with
          | '\x7d' :: tail =>
            "window.__CF$cv$params=\x7b[REMOVED]\x7d".data ++ subCfParamsGo fuel tail
          | _ => c :: subCfParamsGo fuel rest
      else c :: subCfParamsGo fuel rest

/-- Lower-case hexadecimal class `[a-f0-9]` of the `r:'...'` pattern. -/
def isHexLower (c : Char) : Bool := c.isDigit || ('a' ≤ c && c ≤ 'f')

/-- Base64-ish class `[A-Za-z0-9+/=]` of the `t:'...'` pattern. -/
def isB64Char (c : Char) : Bool := c.isAlphanum || c == '+' || c == '/' || c == '='

/-- `re.sub(marker + cls + "'", repl, s)` for the Cloudflare token patterns
`r:'[a-f0-9]+'` and `t:'[A-Za-z0-9+/=]+'`: a greedy run of class characters
must be closed by a quote for the match to succeed. -/
def subQuotedGo (marker : List Char) (ok : Char → Bool) (repl : List Char) :
    Nat → List Char → List Char
  | 0, cs => cs
  | fuel + 1, cs =>
    match cs with
    | [] => []
    | c :: rest =>
      if marker.isPrefixOf (c :: rest) then
        let afterM := (c :: rest).drop marker.length
        let run := afterM.takeWhile ok
        if run.isEmpty then c :: subQuotedGo marker ok repl fuel rest
        else
          match afterM.drop run.length with
          | '\x27' :: tail => repl ++ subQuotedGo marker ok repl fuel tail
          | _ => c :: subQuotedGo marker ok repl fuel rest
      else c :: subQuotedGo marker ok repl fuel rest

/-- Case-insensitive literal test at the head of the input. -/
def ciStarts (pat : List Char) (cs : List Char) : Bool :=
  (cs.take pat.length).map Char.toLower == pat

/-- The optional plural `s?` after a unit word (case-insensitive, greedy). -/
def optPlural (cs : List Char) : List Char :=
  match cs with
  | c :: rest => if c.toLower == 's' then rest else cs
  | [] => []

/-- Ordered alternation `(h\.|hours?|mins?|minutes?|days?|weeks?|months?)`
of the relative-time pattern, case-insensitive; the first alternative that
matches wins (the remainder of the pattern is all-optional, so no
backtracking across alternatives occurs in the engine either). -/
def timeUnitMatch (cs : List Char) : Option (List Char) :=
  if ciStarts "h.".data cs then some (cs.drop 2)
  else if ciStarts "hour".data cs then some (optPlural (cs.drop 4))
  else if ciStarts "min".data cs then some (optPlural (cs.drop 3))
  else if ciStarts "minute".data cs then some (optPlural (cs.drop 6))
  else if ciStarts "day".data cs then some (optPlural (cs.drop 3))
  else if ciStarts "week".data cs then some (optPlural (cs.drop 4))
  else if ciStarts "month".data cs then some (optPlural (cs.drop 5))
  else none

/-- One match attempt of
`\d+\s*(h\.|hours?|mins?|minutes?|days?|weeks?|months?)\s*(ago)?\.?` at the
head of the input; returns the remainder after the match. -/
def tryTimeTail (cs : List Char) : Option (List Char) :=
  let ds := cs.takeWhile Char.isDigit
  if ds.isEmpty then none
  else
    let r1 := (cs.drop ds.length).dropWhile Char.isWhitespace
    match timeUnitMatch r1 with
    | none => none
    | some r2 =>
      let r3 := r2.dropWhile Char.isWhitespace
      let r4 := if ciStarts "ago".data r3 then r3.drop 3 else r3
      some (match r4 with
        | '.' :: t => t
        | _ => r4)

/-- `re.sub` of the relative-time pattern with replacement `[TIME]`,
`flags=re.IGNORECASE`. -/
def subRelTimeGo : Nat → List Char → List Char
  | 0, cs => cs
  | fuel + 1, cs =>
    match cs with
    | [] => []
    | c :: rest =>
      match tryTimeTail (c :: rest) with
      | some tail => "[TIME]".data ++ subRelTimeGo fuel tail
      | none => c :: subRelTimeGo fuel rest

/-- Contiguous-sublist test (`pat` occurs somewhere inside `cs`). -/
def listHasSub (pat : List Char) : List Char → Bool
  | [] => pat.isEmpty
  | c :: rest => pat.isPrefixOf (c :: rest) || listHasSub pat rest

/-- `re.sub(r'<img[^>]*facebook\.com/tr[^>]*>', '', s)`: the match extends
from a literal `<img` to the first following `>`, and succeeds exactly when
`facebook.com/tr` occurs in between. -/
def subFbPixelGo : Nat → List Char → List Char
  | 0, cs => cs
  | fuel + 1, cs =>
    match cs with
    | [] => []
    | c :: rest =>
      if "<img".data.isPrefixOf (c :: rest) then
        let afterM := (c :: rest).drop 4
        let seg := afterM.takeWhile (fun ch => !(ch == '>'))
        match afterM.drop seg.length with
        | '>' :: tail =>
          if listHasSub "facebook.com/tr".data seg then subFbPixelGo fuel tail
          else c :: subFbPixelGo fuel rest
        | _ => c :: subFbPixelGo fuel rest
      else c :: subFbPixelGo fuel rest

/-- `text.split()`: maximal runs of non-whitespace characters. -/
def wsWords (cs : List Char) : List (List Char) :=
  (cs.foldr (fun c acc =>
    if c.isWhitespace then ([] : List Char) :: acc
    else
      match acc with
      | [] => [[c]]
      | w :: t => (c :: w) :: t) []).filter (fun w => !w.isEmpty)

/-- `' '.join(text.split())`. -/
def collapseWs (cs : List Char) : List Char := List.intercalate [' '] (wsWords cs)

/-- The first stage of `_normalize_html_for_comparison`: the BeautifulSoup
round trip with the two tracking-parameter tag passes, i.e. `str(soup)`
after the `href`/`src` mutations. -/
def soupStripped (html : String) : List Char :=
  (serializeToks (((parseHtmlToks html).map stripHrefTok).map stripSrcTok)).data

/-- The second stage of `_normalize_html_for_comparison`: the Cloudflare,
relative-time and Facebook-pixel regex substitutions in source order on the
serialized text, then whitespace collapsing. -/
def normalizeSerializedText (t0 : List Char) : String :=
  let t1 := subCfParamsGo t0.length t0
  let t2 := subQuotedGo "r:\x27".data isHexLower "r:\x27[REMOVED]\x27".data t1.length t1
  let t3 := subQuotedGo "t:\x27".data isB64Char "t:\x27[REMOVED]\x27".data t2.length t2
  let t4 := subRelTimeGo t3.length t3
  let t5 := subFbPixelGo t4.length t4
  ⟨collapseWs t5⟩

/-- `_normalize_html_for_comparison`: BeautifulSoup round trip with the two
tracking-parameter tag passes, then the regex substitutions and whitespace
collapsing. -/
def normalizeHtmlForComparison (html : String) : String :=
  normalizeSerializedText (soupStripped html)

/-- Python `str.strip('/')`: remove leading and trailing slashes. -/
def stripSlashes (s : String) : String :=
  ⟨((s.data.dropWhile (fun c => c == '/')).reverse.dropWhile (fun c => c == '/')).reverse⟩

/-- Python `str.endswith(suf)`. -/
def pyEndsWith (s suf : String) : Bool :=
  suf.data.reverse.isPrefixOf s.data.reverse

/-- Python `str.replace('/', '_')` (single-character pattern). -/
def flattenSlashes (s : String) : String :=
  ⟨s.data.map (fun c => if c == '/' then '_' else c)⟩

/-- Python `str.replace(pat, repl)`: all occurrences, left to right,
non-overlapping. -/
def replaceSubGo (pat repl : List Char) : Nat → List Char → List Char
  | 0, cs => cs
  | fuel + 1, cs =>
    match cs with
    | [] => []
    | c :: rest =>
      if !pat.isEmpty && pat.isPrefixOf (c :: rest) then
        repl ++ replaceSubGo pat repl fuel ((c :: rest).drop pat.length)
      else c :: replaceSubGo pat repl fuel rest

def pyReplace (s pat repl : String) : String :=
  ⟨replaceSubGo pat.data repl.data s.data.length s.data⟩

/-- Filename derivation of `snapshot` / `_archive_page`:
`path = parsed.path.strip('/') or 'index'`, then
`if not path.endswith('.html'): path = path.replace('/', '_') + '.html'`. -/
def deriveFilename (urlPath : String) : String :=
  let p0 := stripSlashes urlPath
  let p := if p0 == "" then "index" else p0
  if pyEndsWith p ".html" then p else flattenSlashes p ++ ".html"

/-- Models `urllib.parse.urlparse(url).path` for the URL shapes used here:
query and fragment cut off, and for absolute URLs the scheme and network
location dropped. -/
def urlparsePath (url : String) : String :=
  let cs := url.data.takeWhile (fun c => !(c == '?') && !(c == '#'))
  match splitAtSub "://".data cs with
  | none => ⟨cs⟩
  | some (_, post) => ⟨post.dropWhile (fun c => !(c == '/'))⟩

/-- Models `os.path.splitext(p)[1]`: the extension starts at the last dot of
the final path component, provided some non-dot character comes before it in
that component. -/
def splitextExt (p : String) : String :=
  let base := (p.data.reverse.takeWhile (fun c => !(c == '/'))).reverse
  let afterRev := base.reverse.takeWhile (fun c => !(c == '.'))
  if afterRev.length == base.length then ""
  else
    let pre := base.take (base.length - afterRev.length - 1)
    if pre.any (fun c => !(c == '.')) then ⟨'.' :: afterRev.reverse⟩ else ""

/-- Models `urllib.parse.urljoin(base, rel)` for the cases exercised here:
absolute references, scheme-relative, root-relative and document-relative
references against an absolute base URL. -/
def urljoinModel (base rel : String) : String :=
  if rel == "" then base
  else if (splitAtSub "://".data rel.data).isSome then rel
  else
    match splitAtSub "://".data base.data with
    | none => rel
    | some (scheme, post) =>
      let netloc := post.takeWhile (fun c => !(c == '/'))
      if rel.data.take 2 == "//".data then ⟨scheme ++ ':' :: rel.data⟩
      else if rel.data.take 1 == ['/'] then ⟨scheme ++ "://".data ++ netloc ++ rel.data⟩
      else
        let path := post.drop netloc.length
        let dir := (path.reverse.dropWhile (fun c => !(c == '/'))).reverse
        ⟨scheme ++ "://".data ++ netloc ++ (if dir.isEmpty then ['/'] else dir) ++ rel.data⟩

/-- Models `pathlib.Path(p).name`: the final path component. -/
def pathName (p : String) : String :=
  ⟨(p.data.reverse.takeWhile (fun c => !(c == '/'))).reverse⟩

/-- On-disk state owned by the asset store: the `asset_cache` mapping
(content hash to relative path, insertion-ordered as a Python dict) and the
files written under the assets tree. -/
structure AssetState where
  cache : List (String × String)
  files : List (String × List Nat)
deriving DecidableEq, Repr

/-- `_get_file_hash`: `hashlib.sha256(content).hexdigest()[:16]`, with the
sha256 hex digest abstracted as a function parameter (external library). -/
def getFileHash (sha256hex : List Nat → String) (content : List Nat) : String :=
  ⟨(sha256hex content).data.take 16⟩

/-- The extension-to-bucket table of `_save_asset`. -/
def assetTypeFor (ext : String) : String :=
  if ext == ".jpg" || ext == ".jpeg" || ext == ".png" || ext == ".gif" ||
      ext == ".svg" || ext == ".webp" || ext == ".ico" then "images"
  else if ext == ".css" then "css"
  else if ext == ".js" then "js"
  else if ext == ".woff" || ext == ".woff2" || ext == ".ttf" || ext == ".eot" then "fonts"
  else "other"

def cacheLookup (cache : List (String × String)) (k : String) : Option String :=
  (cache.find? (fun kv => kv.1 == k)).map (fun kv => kv.2)

/-- The relative path chosen by `_save_asset` for a new asset:
`assets/<bucket>/<hash><ext>`, with `ext = os.path.splitext(parsed.path)[1]
or '.bin'`. -/
def freshAssetPath (sha256hex : List Nat → String) (url : String)
    (content : List Nat) : String :=
  let e := splitextExt (urlparsePath url)
  let ext := if e == "" then ".bin" else e
  "assets/" ++ assetTypeFor ext ++ "/" ++ (getFileHash sha256hex content ++ ext)

/-- `_save_asset`: return the cached path when the content hash is already a
cache key; otherwise write the file under its type bucket, register the
mapping and persist the cache. -/
def saveAsset (sha256hex : List Nat → String) (st : AssetState) (url : String)
    (content : List Nat) : String × AssetState :=
  let contentHash := getFileHash sha256hex content
  match cacheLookup st.cache contentHash with
  | some path => (path, st)
  | none =>
    let relativePath := freshAssetPath sha256hex url content
    (relativePath,
     ⟨st.cache ++ [(contentHash, relativePath)], st.files ++ [(relativePath, content)]⟩)

/-- The `img` pass of `_rewrite_html`: for every `img` tag with a non-empty
`src`, resolve and download the asset; on success store it and point the tag
into the shared asset tree, on failure (or empty body, which `if content:`
treats as failure) leave the tag untouched. -/
def imgTokRewrite (fetch : String → Option (List Nat)) (sha256hex : List Nat → String)
    (pageUrl : String) (ast : AssetState) (t : Tok) : Tok × List String × AssetState :=
  match t with
  | Tok.startTag n attrs =>
    if n == "img" then
      match attrLookup attrs "src" with
      | some v =>
        if v == "" then (t, [], ast)
        else
          match fetch (urljoinModel pageUrl v) with
          | some content =>
            if content.isEmpty then (t, [], ast)
            else
              let r := saveAsset sha256hex ast (urljoinModel pageUrl v) content
              (Tok.startTag n (attrSet attrs "src" ("../../" ++ r.1)), [r.1], r.2)
          | none => (t, [], ast)
      | none => (t, [], ast)
    else (t, [], ast)
  | _ => (t, [], ast)

/-- The stylesheet pass of `_rewrite_html`: `link` tags with
`rel='stylesheet'` and a non-empty `href`. -/
def linkTokRewrite (fetch : String → Option (List Nat)) (sha256hex : List Nat → String)
    (pageUrl : String) (ast : AssetState) (t : Tok) : Tok × List String × AssetState :=
  match t with
  | Tok.startTag n attrs =>
    if n == "link" && attrLookup attrs "rel" == some "stylesheet" then
      match attrLookup attrs "href" with
      | some v =>
        if v == "" then (t, [], ast)
        else
          match fetch (urljoinModel pageUrl v) with
          | some content =>
            if content.isEmpty then (t, [], ast)
            else
              let r := saveAsset sha256hex ast (urljoinModel pageUrl v) content
              (Tok.startTag n (attrSet attrs "href" ("../../" ++ r.1)), [r.1], r.2)
          | none => (t, [], ast)
      | none => (t, [], ast)
    else (t, [], ast)
  | _ => (t, [], ast)

/-- The script pass of `_rewrite_html`: `script` tags with a `src`
attribute present (`find_all('script', src=True)` has no emptiness check). -/
def scriptTokRewrite (fetch : String → Option (List Nat)) (sha256hex : List Nat → String)
    (pageUrl : String) (ast : AssetState) (t : Tok) : Tok × List String × AssetState :=
  match t with
  | Tok.startTag n attrs =>
    if n == "script" then
      match attrLookup attrs "src" with
      | some v =>
        match fetch (urljoinModel pageUrl v) with
        | some content =>
          if content.isEmpty then (t, [], ast)
          else
            let r := saveAsset sha256hex ast (urljoinModel pageUrl v) content
            (Tok.startTag n (attrSet attrs "src" ("../../" ++ r.1)), [r.1], r.2)
        | none => (t, [], ast)
      | none => (t, [], ast)
    else (t, [], ast)
  | _ => (t, [], ast)

/-- One `find_all` loop: apply a per-tag rewrite to every token in order,
threading the asset state and collecting the asset paths used. -/
def tokPass (f : AssetState → Tok → Tok × List String × AssetState) :
    AssetState → List Tok → List Tok × List String × AssetState
  | ast, [] => ([], [], ast)
  | ast, t :: ts =>
    let r := f ast t
    let rs := tokPass f r.2.2 ts
    (r.1 :: rs.1, r.2.1 ++ rs.2.1, rs.2.2)

/-- The three asset passes of `_rewrite_html` on the parsed tag tree, in
source order (images, stylesheets, scripts); the inline-style pass only logs
a warning and mutates nothing. -/
def rewriteAssetToks (fetch : String → Option (List Nat)) (sha256hex : List Nat → String)
    (ast : AssetState) (pageUrl : String) (toks : List Tok) :
    List Tok × List String × AssetState :=
  let p1 := tokPass (imgTokRewrite fetch sha256hex pageUrl) ast toks
  let p2 := tokPass (linkTokRewrite fetch sha256hex pageUrl) p1.2.2 p1.1
  let p3 := tokPass (scriptTokRewrite fetch sha256hex pageUrl) p2.2.2 p2.1
  (p3.1, p1.2.1 ++ p2.2.1 ++ p3.2.1, p3.2.2)

/-- `_rewrite_html(html, page_url)`: parse, run the asset passes, return
`str(soup)` plus the list of asset paths used and the updated store. -/
def rewriteHtml (fetch : String → Option (List Nat)) (sha256hex : List Nat → String)
    (ast : AssetState) (html pageUrl : String) : String × List String × AssetState :=
  let r := rewriteAssetToks fetch sha256hex ast pageUrl (parseHtmlToks html)
  (serializeToks r.1, r.2.1, r.2.2)

/-- One entry of the `temp_pages` batch fetched at the start of `snapshot`. -/
inductive TempPage where
  | success (url html : String)
  | failed (url err : String)
deriving DecidableEq, Repr

/-- One page record of a snapshot manifest; `originalFile` is `none` for
legacy records lacking the `original_file` key. -/
inductive PageRecord where
  | success (url file : String) (originalFile : Option String) (assets : List String)
  | failed (url err : String)
deriving DecidableEq, Repr

structure Manifest where
  timestamp : String
  baseUrl : String
  pages : List PageRecord
deriving DecidableEq, Repr

/-- The change-type classification of `_generate_change_summary`:
`len(curr) > len(prev) * 1.1` is modelled exactly as `10*curr > 11*prev`,
and `len(curr) < len(prev) * 0.9` as `10*curr < 9*prev`. -/
inductive ChangeKind where
  | addition
  | removal
  | modification
deriving DecidableEq, Repr

def classifyChange (prevLen currLen : Nat) : ChangeKind :=
  if 10 * currLen > 11 * prevLen then ChangeKind.addition
  else if 10 * currLen < 9 * prevLen then ChangeKind.removal
  else ChangeKind.modification

/-- One per-page block of the `CHANGES.txt` report: `newPage` stands for the
`NEW PAGE ADDED:` lines, `changed` for the `CHANGES DETECTED:` lines with
the normalized lengths and change type. -/
inductive SummaryEntry where
  | newPage (url : String)
  | changed (url : String) (prevLen currLen : Nat) (kind : ChangeKind)
deriving DecidableEq, Repr

/-- The structure of the `CHANGES.txt` report: `initial` is the
`INITIAL SNAPSHOT` header, `prevIncomplete` the
`Previous snapshot incomplete` line, and `compared prevName entries found`
the `Compared to: prevName` report whose `found = false` case prints
`NO CHANGES DETECTED`. -/
inductive SummaryReport where
  | initial (pageCount : Nat)
  | prevIncomplete (prevName : String)
  | compared (prevName : String) (entries : List SummaryEntry) (changesFound : Bool)
deriving DecidableEq, Repr

/-- One snapshot directory on disk: its (timestamp) name, the HTML files
written into it, its `manifest.json` (if present) and its `CHANGES.txt`
report (if present). -/
structure SnapshotDir where
  name : String
  files : List (String × String)
  manifest : Option Manifest
  changes : Option SummaryReport
deriving DecidableEq, Repr

/-- The archiver's on-disk state: the snapshot directories under the site's
snapshot root and the asset store. -/
structure ArchiverState where
  baseUrl : String
  snapshots : List SnapshotDir
  assets : AssetState
deriving DecidableEq, Repr

/-- Code-point lexicographic order on character lists (Python string `<`). -/
def listLtB : List Char → List Char → Bool
  | [], [] => false
  | [], _ :: _ => true
  | _ :: _, [] => false
  | a :: as, b :: bs =>
    if Nat.blt a.toNat b.toNat then true
    else if Nat.blt b.toNat a.toNat then false
    else listLtB as bs

/-- Python string comparison `a < b`. -/
def strLtB (a b : String) : Bool := listLtB a.data b.data

/-- `_get_most_recent_snapshot`: `sorted(iterdir)[-1]`, i.e. the directory
with the lexicographically greatest name, or `None` when there are none. -/
def getMostRecentSnapshot (snaps : List SnapshotDir) : Option SnapshotDir :=
  snaps.foldl (fun acc d =>
    match acc with
    | none => some d
    | some m => if strLtB d.name m.name then some m else some d) none

/-- The inner lookup of the detector and the summary generator: first
manifest record with the same URL and success status. -/
def findPrevSuccess (m : Manifest) (url : String) : Option PageRecord :=
  m.pages.find? (fun p =>
    match p with
    | PageRecord.success u _ _ _ => u == url
    | PageRecord.failed _ _ => false)

def lookupFile (files : List (String × String)) (name : String) : Option String :=
  (files.find? (fun kv => kv.1 == name)).map (fun kv => kv.2)

/-- `_has_content_changed_from_temp`: true when there is no previous
snapshot or manifest, on a page-count difference, and on the first
successful page that is new, lacks its previous file, or normalizes
differently; false when every page matches (failed fetches are skipped). -/
def hasContentChangedFromTemp (snaps : List SnapshotDir) (temp : List TempPage) : Bool :=
  match getMostRecentSnapshot snaps with
  | none => true
  | some prev =>
    match prev.manifest with
    | none => true
    | some m =>
      if temp.length != m.pages.length then true
      else
        temp.any (fun tp =>
          match tp with
          | TempPage.failed _ _ => false
          | TempPage.success url html =>
            match findPrevSuccess m url with
            | none => true
            | some (PageRecord.failed _ _) => true
            | some (PageRecord.success _ f o _) =>
              match lookupFile prev.files (o.getD f) with
              | none => true
              | some prevHtml =>
                !(normalizeHtmlForComparison html == normalizeHtmlForComparison prevHtml))

/-- The per-page step of `_generate_change_summary`: failed fetches and
pages whose previous file is missing produce no entry; unmatched URLs
produce a `NEW PAGE ADDED` entry; normalization mismatches produce a
`CHANGES DETECTED` entry with the normalized lengths and change type. -/
def summaryStep (prev : SnapshotDir) (m : Manifest) (acc : List SummaryEntry)
    (tp : TempPage) : List SummaryEntry :=
  match tp with
  | TempPage.failed _ _ => acc
  | TempPage.success url html =>
    match findPrevSuccess m url with
    | none => acc ++ [SummaryEntry.newPage url]
    | some (PageRecord.failed _ _) => acc
    | some (PageRecord.success _ f o _) =>
      match lookupFile prev.files (o.getD f) with
      | none => acc
      | some prevHtml =>
        let c := normalizeHtmlForComparison html
        let p := normalizeHtmlForComparison prevHtml
        if c == p then acc
        else acc ++ [SummaryEntry.changed url p.length c.length
          (classifyChange p.length c.length)]

/-- `_generate_change_summary`: note that it calls
`_get_most_recent_snapshot` on the snapshot root as it is at call time. -/
def generateChangeSummary (snaps : List SnapshotDir) (temp : List TempPage) :
    SummaryReport :=
  match getMostRecentSnapshot snaps with
  | none => SummaryReport.initial temp.length
  | some prev =>
    match prev.manifest with
    | none => SummaryReport.prevIncomplete prev.name
    | some m =>
      let entries := temp.foldl (summaryStep prev m) []
      SummaryReport.compared prev.name entries (!entries.isEmpty)

/-- The build accumulator of the changed branch of `snapshot`: manifest
records, files written into the new snapshot directory, asset-store state. -/
structure BuildAcc where
  pages : List PageRecord
  files : List (String × String)
  assets : AssetState
deriving DecidableEq, Repr

/-- One iteration of the page loop in the changed branch of `snapshot`:
rewrite the fetched HTML, write it under the derived filename, write the
untouched original alongside it, and append the manifest record (the
manifest stores only the basename of the original file). -/
def buildPageStep (fetch : String → Option (List Nat)) (sha256hex : List Nat → String)
    (acc : BuildAcc) (tp : TempPage) : BuildAcc :=
  match tp with
  | TempPage.failed url err => ⟨acc.pages ++ [PageRecord.failed url err], acc.files, acc.assets⟩
  | TempPage.success url html =>
    let r := rewriteHtml fetch sha256hex acc.assets html url
    let path := deriveFilename (urlparsePath url)
    let origName := pyReplace path ".html" "_original.html"
    ⟨acc.pages ++ [PageRecord.success url path (some (pathName origName)) r.2.1],
     acc.files ++ [(path, r.1), (origName, html)],
     r.2.2⟩

/-- `snapshot` after the fetch loop (the fetch results are the `temp` input):
ask the change detector; if unchanged return `None` and touch nothing;
otherwise create the timestamped directory, build the pages, write the
manifest, and only then generate the change summary — at which point the
new directory is already the most recent one under the snapshot root. -/
def runSnapshot (fetch : String → Option (List Nat)) (sha256hex : List Nat → String)
    (timestamp : String) (st : ArchiverState) (temp : List TempPage) :
    Option String × ArchiverState :=
  if hasContentChangedFromTemp st.snapshots temp then
    let b := temp.foldl (buildPageStep fetch sha256hex) ⟨[], [], st.assets⟩
    let m : Manifest := ⟨timestamp, st.baseUrl, b.pages⟩
    let preDir : SnapshotDir := ⟨timestamp, b.files, some m, none⟩
    let report := generateChangeSummary (st.snapshots ++ [preDir]) temp
    let newDir : SnapshotDir := ⟨timestamp, b.files, some m, some report⟩
    (some timestamp, ⟨st.baseUrl, st.snapshots ++ [newDir], b.assets⟩)
  else (none, st)

/-- The `CHANGES.txt` report of the most recently written snapshot. -/
def lastSnapshotChanges (st : ArchiverState) : Option SummaryReport :=
  match st.snapshots.getLast? with
  | some d => d.changes
  | none => none

/-- The "unchanged remote content" scenario: a previous snapshot with a
manifest of the same page count exists, and every successfully fetched page
has a same-URL success record whose stored previous HTML file is
byte-identical to the fresh fetch. -/
def contentUnchanged (snaps : List SnapshotDir) (temp : List TempPage) : Prop :=
  ∃ prev m, getMostRecentSnapshot snaps = some prev ∧ prev.manifest = some m ∧
    temp.length = m.pages.length ∧
    ∀ tp ∈ temp, ∀ url html, tp = TempPage.success url html →
      ∃ f o a, findPrevSuccess m url = some (PageRecord.success url f o a) ∧
        lookupFile prev.files (o.getD f) = some html

/-- A concrete one-page previous snapshot used by the concrete scenarios. -/
def exOldSnapshot : SnapshotDir :=
  ⟨"2024-01-01_00-00-00",
   [("index.html", "<p>old</p>"), ("index_original.html", "<p>old</p>")],
   some ⟨"2024-01-01_00-00-00", "https://example.com",
     [PageRecord.success "https://example.com/" "index.html"
       (some "index_original.html") []]⟩,
   none⟩

def exState : ArchiverState := ⟨"https://example.com", [exOldSnapshot], ⟨[], []⟩⟩

/-- A fresh fetch of the same page whose content changed. -/
def exTempChanged : List TempPage :=
  [TempPage.success "https://example.com/" "<p>new</p>"]

/-- A fresh fetch byte-identical to the stored original. -/
def exTempSame : List TempPage :=
  [TempPage.success "https://example.com/" "<p>old</p>"]

/-- A concrete two-page previous snapshot (both pages successful). -/
def exOldSnapshot2 : SnapshotDir :=
  ⟨"2024-01-01_00-00-00",
   [("index.html", "<p>a</p>"), ("index_original.html", "<p>a</p>"),
    ("about.html", "<p>b</p>"), ("about_original.html", "<p>b</p>")],
   some ⟨"2024-01-01_00-00-00", "https://example.com",
     [PageRecord.success "https://example.com/" "index.html"
       (some "index_original.html") [],
      PageRecord.success "https://example.com/about" "about.html"
       (some "about_original.html") []]⟩,
   none⟩

def exState2 : ArchiverState := ⟨"https://example.com", [exOldSnapshot2], ⟨[], []⟩⟩

/-- A fresh batch in which the second page — recorded as successful in the
previous manifest — now fails to fetch, while the first is unchanged. -/
def exTempOneFailed : List TempPage :=
  [TempPage.success "https://example.com/" "<p>a</p>",
   TempPage.failed "https://example.com/about" "timeout"]

/-- A snapshot directory whose `manifest.json` is missing. -/
def exNoManifestSnapshot : SnapshotDir := ⟨"2024-01-01_00-00-00", [], none, none⟩

/-- The pathological document for the idempotence analysis: a Facebook
pixel tag separating a number from a time-unit word. -/
def exPixelSplitDoc : String := "5 <img src=\"https://facebook.com/tr?id=1\"/>days ago"

/-- The four tracking-parameter pattern heads of the normalizer, in the
order `_normalize_html_for_comparison` applies them. -/
def trackingMarkers : List String := ["?_gl=", "&_gl=", "?_ga=", "&_ga="]

/-- A tag of `_rewrite_html` whose asset download fails (`_download_asset`
returns `None`): an `img` with a non-empty `src`, a stylesheet `link` with a
non-empty `href`, or a `script` carrying a `src` attribute. -/
def failingAssetTag (fetch : String → Option (List Nat)) (pageUrl : String)
    (t : Tok) : Prop :=
  (∃ attrs u, t = Tok.startTag "img" attrs ∧ attrLookup attrs "src" = some u ∧
    ¬ u = "" ∧ fetch (urljoinModel pageUrl u) = none) ∨
  (∃ attrs u, t = Tok.startTag "link" attrs ∧
    attrLookup attrs "rel" = some "stylesheet" ∧ attrLookup attrs "href" = some u ∧
    ¬ u = "" ∧ fetch (urljoinModel pageUrl u) = none) ∨
  (∃ attrs u, t = Tok.startTag "script" attrs ∧ attrLookup attrs "src" = some u ∧
    fetch (urljoinModel pageUrl u) = none)

theorem cacheLookup_append_self (c : List (String × String)) (h p : String)
    (hn : cacheLookup c h = none) : cacheLookup (c ++ [(h, p)]) h = some p := by
  have hone : List.find? (fun kv => kv.1 == h) [(h, p)] = some (h, p) := by
    simp [List.find?]
  unfold cacheLookup at hn ⊢
  rw [List.find?_append]
  rcases hfind : List.find? (fun kv => kv.1 == h) c with _ | kv
  · rw [hfind] at hn ⊢
    rw [Option.none_or, hone]
    rfl
  · rw [hfind] at hn
    simp at hn

theorem pyEndsWith_append (s t : String) : pyEndsWith (s ++ t) t = true := by
  unfold pyEndsWith
  rw [String.data_append, List.reverse_append]
  exact List.isPrefixOf_iff_prefix.mpr (List.prefix_append _ _)

theorem hasChanged_false_of_unchanged (snaps : List SnapshotDir) (temp : List TempPage)
    (h : contentUnchanged snaps temp) :
    hasContentChangedFromTemp snaps temp = false := by
  obtain ⟨prev, m, h1, h2, hlen, hall⟩ := h
  have hne : (temp.length != m.pages.length) = false := by simp [hlen]
  simp only [hasContentChangedFromTemp, h1, h2, hne, Bool.false_eq_true, if_false]
  rw [List.any_eq_false]
  intro tp htp
  cases tp with
  | failed u e => simp
  | success url html =>
    obtain ⟨f, o, a, hfind, hfile⟩ := hall _ htp url html rfl
    simp [hfind, hfile]

theorem saveAsset_hit (sha256hex : List Nat → String) (st : AssetState) (url : String)
    (content : List Nat) (path : String)
    (h : cacheLookup st.cache (getFileHash sha256hex content) = some path) :
    saveAsset sha256hex st url content = (path, st) := by
  simp only [saveAsset, h]

theorem saveAsset_miss (sha256hex : List Nat → String) (st : AssetState) (url : String)
    (content : List Nat)
    (h : cacheLookup st.cache (getFileHash sha256hex content) = none) :
    saveAsset sha256hex st url content =
      (freshAssetPath sha256hex url content,
       ⟨st.cache ++ [(getFileHash sha256hex content, freshAssetPath sha256hex url content)],
        st.files ++ [(freshAssetPath sha256hex url content, content)]⟩) := by
  simp only [saveAsset, h]

theorem listHasSub_append_right (pat xs ys : List Char)
    (h : listHasSub pat xs = true) : listHasSub pat (xs ++ ys) = true := by
  induction xs with
  | nil =>
    simp only [listHasSub] at h
    have hp : pat = [] := by simpa using h
    subst hp
    cases ys with
    | nil => simp [listHasSub]
    | cons c cs => simp [listHasSub, List.isPrefixOf]
  | cons c cs ih =>
    simp only [listHasSub, List.cons_append, Bool.or_eq_true] at h ⊢
    rcases h with h | h
    · left
      have hp := List.isPrefixOf_iff_prefix.mp h
      have hext : (c :: cs) <+: (c :: cs) ++ ys := List.prefix_append _ _
      have := hp.trans hext
      rw [List.cons_append] at this
      exact List.isPrefixOf_iff_prefix.mpr this
    · right
      exact ih h

theorem listHasSub_false_left (pat xs ys : List Char)
    (h : listHasSub pat (xs ++ ys) = false) : listHasSub pat xs = false := by
  cases hx : listHasSub pat xs
  · rfl
  · rw [listHasSub_append_right pat xs ys hx] at h
    exact absurd h (by simp)

theorem listHasSub_iff_drop (pat cs : List Char) :
    listHasSub pat cs = true ↔ ∃ i, pat.isPrefixOf (cs.drop i) = true := by
  induction cs with
  | nil =>
    simp only [listHasSub, List.drop_nil]
    constructor
    · intro h
      refine ⟨0, ?_⟩
      have hp : pat = [] := by simpa using h
      subst hp
      rfl
    · rintro ⟨i, hi⟩
      cases pat with
      | nil => rfl
      | cons p ps => simp [List.isPrefixOf] at hi
  | cons c cs ih =>
    simp only [listHasSub, Bool.or_eq_true, ih]
    constructor
    · rintro (h | ⟨i, hi⟩)
      · exact ⟨0, h⟩
      · exact ⟨i + 1, by simpa [List.drop_succ_cons] using hi⟩
    · rintro ⟨i, hi⟩
      cases i with
      | zero => exact Or.inl (by simpa using hi)
      | succ j => exact Or.inr ⟨j, by simpa [List.drop_succ_cons] using hi⟩

theorem isPrefixOf_nil_eq (pat : List Char) (h : pat.isPrefixOf ([] : List Char) = true) :
    pat = [] := by
  cases pat with
  | nil => rfl
  | cons p ps => simp [List.isPrefixOf] at h

/-- A pattern occurring nowhere before position `pre.length` of `pre ++ X`
occurs nowhere inside `pre` either. -/
theorem listHasSub_false_of_no_drop (pat pre X : List Char) (hp : ¬ pat = [])
    (hno : ∀ i, i < pre.length → ¬ pat.isPrefixOf ((pre ++ X).drop i) = true) :
    listHasSub pat pre = false := by
  cases hx : listHasSub pat pre
  · rfl
  · exfalso
    obtain ⟨i, hi⟩ := (listHasSub_iff_drop pat pre).mp hx
    by_cases hlt : i < pre.length
    · refine hno i hlt ?_
      rw [List.drop_append_of_le_length (Nat.le_of_lt hlt)]
      have hpre := List.isPrefixOf_iff_prefix.mp hi
      have hext : pre.drop i <+: pre.drop i ++ X := List.prefix_append _ _
      exact List.isPrefixOf_iff_prefix.mpr (hpre.trans hext)
    · have hdrop : pre.drop i = [] := by
        rw [List.drop_eq_nil_iff]
        omega
      rw [hdrop] at hi
      exact hp (isPrefixOf_nil_eq pat hi)

theorem takeWhile_eq_self_of_all (p : Char → Bool) (l : List Char)
    (h : l.all p = true) : l.takeWhile p = l := by
  induction l with
  | nil => rfl
  | cons c cs ih =>
    simp only [List.all_cons, Bool.and_eq_true] at h
    simp [List.takeWhile_cons, h.1, ih h.2]

theorem takeWhile_append_stop (p : Char → Bool) (h : List Char) (c : Char)
    (suf : List Char) (hall : h.all p = true) (hc : p c = false) :
    (h ++ c :: suf).takeWhile p = h := by
  induction h with
  | nil => simp [List.takeWhile_cons, hc]
  | cons a as ih =>
    simp only [List.all_cons, Bool.and_eq_true] at hall
    simp [List.takeWhile_cons, hall.1, ih hall.2]

theorem find?_setMap (attrs : List (String × String)) (k v : String)
    (h : (attrs.find? (fun kv => kv.1 == k)).isSome = true) :
    (attrs.map (fun kv => if kv.1 == k then (k, v) else kv)).find?
        (fun kv => kv.1 == k) = some (k, v) := by
  induction attrs with
  | nil => simp at h
  | cons a as ih =>
    rw [List.map_cons]
    by_cases ha : (a.1 == k) = true
    · rw [if_pos ha, List.find?_cons]
      simp only [beq_self_eq_true]
    · have haf : (a.1 == k) = false := by simpa using ha
      have h' : (as.find? (fun kv => kv.1 == k)).isSome = true := by
        rw [List.find?_cons] at h
        simpa [haf] using h
      rw [if_neg ha, List.find?_cons]
      simp only [haf]
      exact ih h' 

theorem attrLookup_attrSet (attrs : List (String × String)) (k v : String) :
    attrLookup (attrSet attrs k v) k = some v := by
  unfold attrLookup attrSet
  by_cases h : (attrs.find? (fun kv => kv.1 == k)).isSome = true
  · rw [if_pos h, find?_setMap attrs k v h]
    rfl
  · rw [if_neg h, List.find?_append]
    have hnone : attrs.find? (fun kv => kv.1 == k) = none := by
      cases hx : attrs.find? (fun kv => kv.1 == k)
      · rfl
      · rw [hx] at h
        simp at h
    rw [hnone]
    simp [List.find?_cons]

theorem lookup_setMap_ne (attrs : List (String × String)) (k v k2 : String)
    (hne : ¬ k2 = k) :
    attrLookup (attrs.map (fun kv => if kv.1 == k then (k, v) else kv)) k2
      = attrLookup attrs k2 := by
  induction attrs with
  | nil => rfl
  | cons a as ih =>
    rw [List.map_cons]
    simp only [attrLookup] at ih ⊢
    by_cases ha : (a.1 == k) = true
    · have ha1 : a.1 = k := by simpa using ha
      have hk2 : (k == k2) = false := by
        rw [beq_eq_false_iff_ne]
        intro hk
        exact hne hk.symm
      have ha2 : (a.1 == k2) = false := by
        rw [ha1]
        exact hk2
      rw [if_pos ha, List.find?_cons, List.find?_cons]
      simp only [hk2, ha2]
      exact ih
    · rw [if_neg ha, List.find?_cons, List.find?_cons]
      by_cases hp : (a.1 == k2) = true
      · simp only [hp]
      · have hpf : (a.1 == k2) = false := by simpa using hp
        simp only [hpf]
        exact ih

theorem attrLookup_attrSet_ne (attrs : List (String × String)) (k v k2 : String)
    (hne : ¬ k2 = k) :
    attrLookup (attrSet attrs k v) k2 = attrLookup attrs k2 := by
  unfold attrSet
  by_cases h : (attrs.find? (fun kv => kv.1 == k)).isSome = true
  · rw [if_pos h]
    exact lookup_setMap_ne attrs k v k2 hne
  · rw [if_neg h]
    unfold attrLookup
    rw [List.find?_append]
    have hk2 : (k == k2) = false := by
      rw [beq_eq_false_iff_ne]
      intro hk
      exact hne hk.symm
    simp [List.find?_cons, hk2, Option.or_none]

theorem attrSet_attrSet (attrs : List (String × String)) (k v w : String) :
    attrSet (attrSet attrs k v) k w = attrSet attrs k w := by
  by_cases h : (attrs.find? (fun kv => kv.1 == k)).isSome = true
  · have h1 : attrSet attrs k v
        = attrs.map (fun kv => if kv.1 == k then (k, v) else kv) := by
      unfold attrSet
      rw [if_pos h]
    have h2 : attrSet attrs k w
        = attrs.map (fun kv => if kv.1 == k then (k, w) else kv) := by
      unfold attrSet
      rw [if_pos h]
    have hsome : ((attrs.map (fun kv => if kv.1 == k then (k, v) else kv)).find?
        (fun kv => kv.1 == k)).isSome = true := by
      rw [find?_setMap attrs k v h]
      rfl
    rw [h1, h2]
    unfold attrSet
    rw [if_pos hsome, List.map_map]
    refine List.map_congr_left ?_
    intro a _
    by_cases ha : (a.1 == k) = true
    · simp [Function.comp, ha]
    · simp [Function.comp, ha]
  · have hnone : attrs.find? (fun kv => kv.1 == k) = none := by
      cases hx : attrs.find? (fun kv => kv.1 == k)
      · rfl
      · rw [hx] at h
        simp at h
    have h1 : attrSet attrs k v = attrs ++ [(k, v)] := by
      unfold attrSet
      rw [if_neg h]
    have h2 : attrSet attrs k w = attrs ++ [(k, w)] := by
      unfold attrSet
      rw [if_neg h]
    have hsome : ((attrs ++ [(k, v)]).find? (fun kv => kv.1 == k)).isSome = true := by
      rw [List.find?_append, hnone]
      simp [List.find?_cons]
    rw [h1, h2]
    unfold attrSet
    rw [if_pos hsome, List.map_append]
    have hall := List.find?_eq_none.mp hnone
    have hid : attrs.map (fun kv => if kv.1 == k then (k, w) else kv) = attrs := by
      have hmc : attrs.map (fun kv => if kv.1 == k then (k, w) else kv)
          = attrs.map id := by
        refine List.map_congr_left ?_
        intro a ha
        have hfa := hall a ha
        simp [hfa]
      simpa using hmc
    rw [hid]
    simp

theorem stripParamGo_nil (pat : List Char) (fuel : Nat) :
    stripParamGo pat fuel [] = [] := by
  cases fuel <;> rfl

theorem stripParamGo_id (pat : List Char) (fuel : Nat) (cs : List Char)
    (h : listHasSub pat cs = false) : stripParamGo pat fuel cs = cs := by
  induction fuel generalizing cs with
  | zero => rfl
  | succ f ih =>
    cases cs with
    | nil => rfl
    | cons c rest =>
      simp only [listHasSub, Bool.or_eq_false_iff] at h
      simp only [stripParamGo, h.1, Bool.false_eq_true, if_false]
      rw [ih rest h.2]

theorem subQuotedGo_id (marker : List Char) (ok : Char → Bool) (repl : List Char)
    (fuel : Nat) (cs : List Char) (h : listHasSub marker cs = false) :
    subQuotedGo marker ok repl fuel cs = cs := by
  induction fuel generalizing cs with
  | zero => rfl
  | succ f ih =>
    cases cs with
    | nil => rfl
    | cons c rest =>
      simp only [listHasSub, Bool.or_eq_false_iff] at h
      simp only [subQuotedGo, h.1, Bool.false_eq_true, if_false]
      rw [ih rest h.2]

theorem subCfParamsGo_id (fuel : Nat) (cs : List Char)
    (h : listHasSub "window.__CF$cv$params=\x7b".data cs = false) :
    subCfParamsGo fuel cs = cs := by
  induction fuel generalizing cs with
  | zero => rfl
  | succ f ih =>
    cases cs with
    | nil => rfl
    | cons c rest =>
      simp only [listHasSub, Bool.or_eq_false_iff] at h
      simp only [subCfParamsGo, h.1, Bool.false_eq_true, if_false]
      rw [ih rest h.2]

theorem stripParamGo_removes (pat pre run : List Char) (fuel : Nat)
    (hp : ¬ pat = [])
    (hfuel : (pre ++ pat ++ run).length ≤ fuel)
    (hrun : ¬ run = []) (hall : run.all isTrackValChar = true)
    (hno : ∀ i, i < pre.length →
      ¬ pat.isPrefixOf ((pre ++ pat ++ run).drop i) = true) :
    stripParamGo pat fuel (pre ++ pat ++ run) = pre := by
  induction pre generalizing fuel with
  | nil =>
    rcases hpat : pat with _ | ⟨p0, pt⟩
    · exact absurd hpat hp
    subst hpat
    cases fuel with
    | zero =>
      exfalso
      simp at hfuel
    | succ f =>
      simp only [List.nil_append, List.cons_append]
      have hpref : (p0 :: pt).isPrefixOf (p0 :: (pt ++ run)) = true := by
        rw [← List.cons_append]
        exact List.isPrefixOf_iff_prefix.mpr (List.prefix_append _ _)
      have hdrop : (p0 :: (pt ++ run)).drop (p0 :: pt).length = run := by
        rw [List.length_cons, List.drop_succ_cons, List.drop_left]
      simp only [stripParamGo, hpref, if_true, hdrop,
        takeWhile_eq_self_of_all isTrackValChar run hall]
      have hre : run.isEmpty = false := by
        cases run
        · exact absurd rfl hrun
        · rfl
      simp only [hre, Bool.false_eq_true, if_false, List.drop_length]
      exact stripParamGo_nil _ _
  | cons a pre2 ih =>
    cases fuel with
    | zero =>
      exfalso
      simp at hfuel
    | succ f =>
      simp only [List.cons_append]
      have h0 := hno 0 (by simp)
      have h0f : pat.isPrefixOf (a :: (pre2 ++ pat ++ run)) = false := by
        rw [Bool.eq_false_iff]
        intro hcon
        refine h0 ?_
        simpa [List.cons_append] using hcon
      simp only [stripParamGo, h0f, Bool.false_eq_true, if_false]
      have hfuel2 : (pre2 ++ pat ++ run).length ≤ f := by
        simp only [List.cons_append, List.length_cons] at hfuel
        simp only [List.length_append] at hfuel ⊢
        omega
      have hno2 : ∀ i, i < pre2.length →
          ¬ pat.isPrefixOf ((pre2 ++ pat ++ run).drop i) = true := by
        intro i hi
        have := hno (i + 1) (by simp only [List.length_cons]; omega)
        simpa [List.cons_append, List.drop_succ_cons] using this
      rw [ih f hfuel2 hno2]

theorem subQuotedGo_removes (marker : List Char) (ok : Char → Bool) (repl : List Char)
    (pre h suf : List Char) (fuel : Nat)
    (hm : ¬ marker = [])
    (hfuel : (pre ++ marker ++ h ++ '\x27' :: suf).length ≤ fuel)
    (hh : ¬ h = []) (hallh : h.all ok = true) (hq : ok '\x27' = false)
    (hsuf : listHasSub marker suf = false)
    (hno : ∀ i, i < pre.length →
      ¬ marker.isPrefixOf ((pre ++ marker ++ h ++ '\x27' :: suf).drop i) = true) :
    subQuotedGo marker ok repl fuel (pre ++ marker ++ h ++ '\x27' :: suf)
      = pre ++ repl ++ suf := by
  induction pre generalizing fuel with
  | nil =>
    rcases hmk : marker with _ | ⟨m0, mt⟩
    · exact absurd hmk hm
    subst hmk
    cases fuel with
    | zero =>
      exfalso
      simp at hfuel
    | succ f =>
      simp only [List.nil_append, List.cons_append, List.append_assoc]
      have hpref : (m0 :: mt).isPrefixOf (m0 :: (mt ++ (h ++ '\x27' :: suf))) = true := by
        rw [← List.cons_append]
        exact List.isPrefixOf_iff_prefix.mpr (List.prefix_append _ _)
      have hdrop : (m0 :: (mt ++ (h ++ '\x27' :: suf))).drop (m0 :: mt).length
          = h ++ '\x27' :: suf := by
        rw [List.length_cons, List.drop_succ_cons, List.drop_left]
      simp only [subQuotedGo, hpref, if_true, hdrop,
        takeWhile_append_stop ok h '\x27' suf hallh hq]
      have hre : h.isEmpty = false := by
        cases h
        · exact absurd rfl hh
        · rfl
      simp only [hre, Bool.false_eq_true, if_false, List.drop_left]
      rw [subQuotedGo_id (m0 :: mt) ok repl f suf hsuf]
  | cons a pre2 ih =>
    cases fuel with
    | zero =>
      exfalso
      simp at hfuel
    | succ f =>
      simp only [List.cons_append]
      have h0 := hno 0 (by simp)
      have h0f : marker.isPrefixOf (a :: (pre2 ++ marker ++ h ++ '\x27' :: suf)) = false := by
        rw [Bool.eq_false_iff]
        intro hcon
        refine h0 ?_
        simpa [List.cons_append] using hcon
      simp only [subQuotedGo, h0f, Bool.false_eq_true, if_false]
      have hfuel2 : (pre2 ++ marker ++ h ++ '\x27' :: suf).length ≤ f := by
        simp only [List.cons_append, List.length_cons] at hfuel
        simp only [List.length_append] at hfuel ⊢
        omega
      have hno2 : ∀ i, i < pre2.length →
          ¬ marker.isPrefixOf ((pre2 ++ marker ++ h ++ '\x27' :: suf).drop i) = true := by
        intro i hi
        have := hno (i + 1) (by simp only [List.length_cons]; omega)
        simpa [List.cons_append, List.drop_succ_cons] using this
      rw [ih f hfuel2 hno2]

/-- A character list containing none of the four tracking markers passes
through all four `re.sub` stages untouched. -/
theorem stripTrackingParams_id_of (s : List Char)
    (h : ∀ pat ∈ trackingMarkers, listHasSub pat.data s = false) :
    stripTrackingParams ⟨s⟩ = ⟨s⟩ := by
  have e1 : stripParam "?_gl=" ⟨s⟩ = ⟨s⟩ := by
    show String.mk (stripParamGo "?_gl=".data s.length s) = String.mk s
    rw [stripParamGo_id _ _ _ (h "?_gl=" (by simp [trackingMarkers]))]
  have e2 : stripParam "&_gl=" ⟨s⟩ = ⟨s⟩ := by
    show String.mk (stripParamGo "&_gl=".data s.length s) = String.mk s
    rw [stripParamGo_id _ _ _ (h "&_gl=" (by simp [trackingMarkers]))]
  have e3 : stripParam "?_ga=" ⟨s⟩ = ⟨s⟩ := by
    show String.mk (stripParamGo "?_ga=".data s.length s) = String.mk s
    rw [stripParamGo_id _ _ _ (h "?_ga=" (by simp [trackingMarkers]))]
  have e4 : stripParam "&_ga=" ⟨s⟩ = ⟨s⟩ := by
    show String.mk (stripParamGo "&_ga=".data s.length s) = String.mk s
    rw [stripParamGo_id _ _ _ (h "&_ga=" (by simp [trackingMarkers]))]
  unfold stripTrackingParams
  rw [e1, e2, e3, e4]

/-- An attribute value of the shape `pre ++ marker ++ run` — the marker
occurring nowhere else, `run` a non-empty greedy parameter value — is
stripped down to `pre` by the four-substitution pipeline.  This covers both
the `?`-form (the parameter opens the query string) and the `&`-form (a
trailing parameter). -/
theorem stripTrackingParams_removes (m : String) (hm : m ∈ trackingMarkers)
    (pre run : List Char)
    (hrun : ¬ run = []) (hall : run.all isTrackValChar = true)
    (hno : ∀ i, i < pre.length →
      ¬ m.data.isPrefixOf ((pre ++ m.data ++ run).drop i) = true)
    (hoth : ∀ pat ∈ trackingMarkers, ¬ pat = m →
      listHasSub pat.data (pre ++ m.data ++ run) = false) :
    stripTrackingParams ⟨pre ++ m.data ++ run⟩ = ⟨pre⟩ := by
  have hm4 : m = "?_gl=" ∨ m = "&_gl=" ∨ m = "?_ga=" ∨ m = "&_ga=" := by
    simpa [trackingMarkers] using hm
  have hmne : ¬ m.data = [] := by
    rcases hm4 with rfl | rfl | rfl | rfl <;> decide
  have hpre : ∀ pat ∈ trackingMarkers, listHasSub pat.data pre = false := by
    intro pat hpat
    by_cases hpm : pat = m
    · subst hpm
      have hno2 : ∀ i, i < pre.length →
          ¬ pat.data.isPrefixOf ((pre ++ (pat.data ++ run)).drop i) = true := by
        intro i hi
        have := hno i hi
        rwa [List.append_assoc] at this
      exact listHasSub_false_of_no_drop pat.data pre (pat.data ++ run) hmne hno2
    · have hx := hoth pat hpat hpm
      rw [List.append_assoc] at hx
      exact listHasSub_false_left _ _ _ hx
  have hremove : stripParam m ⟨pre ++ m.data ++ run⟩ = ⟨pre⟩ := by
    show String.mk (stripParamGo m.data (pre ++ m.data ++ run).length
      (pre ++ m.data ++ run)) = String.mk pre
    rw [stripParamGo_removes m.data pre run _ hmne (le_refl _) hrun hall hno]
  have hid_full : ∀ pat ∈ trackingMarkers, ¬ pat = m →
      stripParam pat ⟨pre ++ m.data ++ run⟩ = ⟨pre ++ m.data ++ run⟩ := by
    intro pat hpat hne2
    show String.mk (stripParamGo pat.data (pre ++ m.data ++ run).length
      (pre ++ m.data ++ run)) = String.mk (pre ++ m.data ++ run)
    rw [stripParamGo_id _ _ _ (hoth pat hpat hne2)]
  have hid_pre : ∀ pat ∈ trackingMarkers, stripParam pat ⟨pre⟩ = ⟨pre⟩ := by
    intro pat hpat
    show String.mk (stripParamGo pat.data pre.length pre) = String.mk pre
    rw [stripParamGo_id _ _ _ (hpre pat hpat)]
  unfold stripTrackingParams
  rcases hm4 with rfl | rfl | rfl | rfl
  · rw [hremove, hid_pre "&_gl=" (by simp [trackingMarkers]),
      hid_pre "?_ga=" (by simp [trackingMarkers]),
      hid_pre "&_ga=" (by simp [trackingMarkers])]
  · rw [hid_full "?_gl=" (by simp [trackingMarkers]) (by decide), hremove,
      hid_pre "?_ga=" (by simp [trackingMarkers]),
      hid_pre "&_ga=" (by simp [trackingMarkers])]
  · rw [hid_full "?_gl=" (by simp [trackingMarkers]) (by decide),
      hid_full "&_gl=" (by simp [trackingMarkers]) (by decide), hremove,
      hid_pre "&_ga=" (by simp [trackingMarkers])]
  · rw [hid_full "?_gl=" (by simp [trackingMarkers]) (by decide),
      hid_full "&_gl=" (by simp [trackingMarkers]) (by decide),
      hid_full "?_ga=" (by simp [trackingMarkers]) (by decide), hremove]

theorem stripHrefTok_handled (n : String) (attrs : List (String × String))
    (v : String) (hn : n = "a" ∨ n = "link" ∨ n = "script" ∨ n = "img")
    (hv : attrLookup attrs "href" = some v) :
    stripHrefTok (Tok.startTag n attrs)
      = Tok.startTag n (attrSet attrs "href" (stripTrackingParams v)) := by
  have hc : (n == "a" || n == "link" || n == "script" || n == "img") = true := by
    rcases hn with rfl | rfl | rfl | rfl <;> rfl
  simp only [stripHrefTok, hc, if_true, hv]

theorem stripSrcTok_handled (n : String) (attrs : List (String × String))
    (v : String) (hn : n = "img" ∨ n = "script")
    (hv : attrLookup attrs "src" = some v) :
    stripSrcTok (Tok.startTag n attrs)
      = Tok.startTag n (attrSet attrs "src" (stripTrackingParams v)) := by
  have hc : (n == "img" || n == "script") = true := by
    rcases hn with rfl | rfl <;> rfl
  simp only [stripSrcTok, hc, if_true, hv]

theorem stripHrefTok_unhandled (n : String) (attrs : List (String × String))
    (hn : ¬ (n = "a" ∨ n = "link" ∨ n = "script" ∨ n = "img")) :
    stripHrefTok (Tok.startTag n attrs) = Tok.startTag n attrs := by
  push_neg at hn
  have h1 : (n == "a") = false := beq_eq_false_iff_ne.mpr hn.1
  have h2 : (n == "link") = false := beq_eq_false_iff_ne.mpr hn.2.1
  have h3 : (n == "script") = false := beq_eq_false_iff_ne.mpr hn.2.2.1
  have h4 : (n == "img") = false := beq_eq_false_iff_ne.mpr hn.2.2.2
  simp only [stripHrefTok, h1, h2, h3, h4, Bool.or_self, Bool.false_eq_true, if_false]

theorem stripSrcTok_unhandled (n : String) (attrs : List (String × String))
    (hn : ¬ (n = "img" ∨ n = "script")) :
    stripSrcTok (Tok.startTag n attrs) = Tok.startTag n attrs := by
  push_neg at hn
  have h1 : (n == "img") = false := beq_eq_false_iff_ne.mpr hn.1
  have h2 : (n == "script") = false := beq_eq_false_iff_ne.mpr hn.2
  simp only [stripSrcTok, h1, h2, Bool.or_self, Bool.false_eq_true, if_false]

/-- C2 (counterexample): the URL path `/docs/page.html` already ends in
`.html`, so the code keeps it verbatim — the slashes are not flattened to
underscores, contradicting the claim that every non-root path is flattened. -/
theorem deriveFilename_keepsSlash_counterexample :
    deriveFilename "/docs/page.html" = "docs/page.html" ∧
    ¬ deriveFilename "/docs/page.html" = "docs_page.html" := by
  decide

/-- C2 (amended): the root path yields `index.html` and `/about/team` yields
`about_team.html`; a `.html` suffix is forced on every derived filename; and
slashes are flattened to underscores for every path whose stripped form does
not already end in `.html` (paths already ending in `.html` are kept
verbatim). -/
theorem deriveFilename_spec :
    deriveFilename "/" = "index.html" ∧
    deriveFilename "/about/team" = "about_team.html" ∧
    (∀ p : String, pyEndsWith (deriveFilename p) ".html" = true) ∧
    (∀ p : String, pyEndsWith (stripSlashes p) ".html" = false →
      (deriveFilename p).data.all (fun c => !(c == '/')) = true) := by
  refine ⟨by decide, by decide, ?_, ?_⟩
  · intro p
    simp only [deriveFilename]
    by_cases h0 : (stripSlashes p == "") = true
    · rw [if_pos h0]
      decide
    · rw [if_neg h0]
      by_cases h1 : pyEndsWith (stripSlashes p) ".html" = true
      · rw [if_pos h1]
        exact h1
      · rw [if_neg h1]
        exact pyEndsWith_append _ _
  · intro p h
    simp only [deriveFilename]
    by_cases h0 : (stripSlashes p == "") = true
    · rw [if_pos h0]
      decide
    · rw [if_neg h0]
      rw [if_neg (by simp [h])]
      rw [String.data_append, List.all_append, Bool.and_eq_true]
      refine ⟨?_, by decide⟩
      show (flattenSlashes (stripSlashes p)).data.all (fun c => !(c == '/')) = true
      rw [List.all_eq_true]
      intro c hc
      simp only [flattenSlashes] at hc
      obtain ⟨d, _, hd⟩ := List.mem_map.mp hc
      by_cases hdd : (d == '/') = true
      · simp only [hdd, if_true] at hd
        subst hd
        decide
      · simp only [hdd, Bool.false_eq_true, if_false] at hd
        subst hd
        simpa using hdd

/-- Witness for the amended C2 claim at the concrete path `/a/b`. -/
theorem deriveFilename_spec_witness :
    pyEndsWith (stripSlashes "/a/b") ".html" = false ∧
    (deriveFilename "/a/b").data.all (fun c => !(c == '/')) = true ∧
    pyEndsWith (deriveFilename "/a/b") ".html" = true :=
  ⟨by decide, deriveFilename_spec.2.2.2 "/a/b" (by decide),
   deriveFilename_spec.2.2.1 "/a/b"⟩

/-- C3: with no previous snapshot directory, or with a previous snapshot
directory lacking its manifest, the change detector returns true for every
candidate batch, with no page comparison attempted. -/
theorem hasChanged_true_without_previous (snaps : List SnapshotDir)
    (temp : List TempPage) :
    (getMostRecentSnapshot snaps = none →
      hasContentChangedFromTemp snaps temp = true) ∧
    (∀ prev, getMostRecentSnapshot snaps = some prev → prev.manifest = none →
      hasContentChangedFromTemp snaps temp = true) := by
  constructor
  · intro h
    simp only [hasContentChangedFromTemp, h]
  · intro prev h1 h2
    simp only [hasContentChangedFromTemp, h1, h2]

/-- Witness for C3: an empty snapshot root and a manifest-less snapshot. -/
theorem hasChanged_true_without_previous_witness :
    hasContentChangedFromTemp [] exTempChanged = true ∧
    hasContentChangedFromTemp [exNoManifestSnapshot] exTempChanged = true :=
  ⟨(hasChanged_true_without_previous [] exTempChanged).1 rfl,
   (hasChanged_true_without_previous [exNoManifestSnapshot] exTempChanged).2
     exNoManifestSnapshot rfl rfl⟩

/-- C4: storing byte-identical content twice, under any two source URLs,
returns the same relative path the second time without touching the store
(no new file, no new cache entry), and the whole exchange grows the cache
index and the file tree by exactly one entry. -/
theorem saveAsset_dedup (sha256hex : List Nat → String) (st : AssetState)
    (u1 u2 : String) (content : List Nat)
    (hfresh : cacheLookup st.cache (getFileHash sha256hex content) = none) :
    (saveAsset sha256hex (saveAsset sha256hex st u1 content).2 u2 content).1
        = (saveAsset sha256hex st u1 content).1 ∧
    (saveAsset sha256hex (saveAsset sha256hex st u1 content).2 u2 content).2
        = (saveAsset sha256hex st u1 content).2 ∧
    (saveAsset sha256hex st u1 content).2.cache.length = st.cache.length + 1 ∧
    (saveAsset sha256hex st u1 content).2.files.length = st.files.length + 1 := by
  have hmiss := saveAsset_miss sha256hex st u1 content hfresh
  have hlook := cacheLookup_append_self st.cache (getFileHash sha256hex content)
    (freshAssetPath sha256hex u1 content) hfresh
  have hhit : saveAsset sha256hex (saveAsset sha256hex st u1 content).2 u2 content
      = (freshAssetPath sha256hex u1 content, (saveAsset sha256hex st u1 content).2) := by
    rw [hmiss]
    exact saveAsset_hit sha256hex _ u2 content _ hlook
  refine ⟨?_, ?_, ?_, ?_⟩
  · rw [hhit, hmiss]
  · rw [hhit]
  · rw [hmiss]
    simp
  · rw [hmiss]
    simp

/-- Witness for C4 at a concrete store, hash function and content. -/
theorem saveAsset_dedup_witness :
    cacheLookup (⟨[], []⟩ : AssetState).cache
      (getFileHash (fun _ => "aabbccddeeff00112233") [1, 2, 3]) = none ∧
    (saveAsset (fun _ => "aabbccddeeff00112233")
        (saveAsset (fun _ => "aabbccddeeff00112233") ⟨[], []⟩
          "https://x.com/a.png" [1, 2, 3]).2
        "https://y.com/b.css" [1, 2, 3]).1
      = (saveAsset (fun _ => "aabbccddeeff00112233") ⟨[], []⟩
          "https://x.com/a.png" [1, 2, 3]).1 ∧
    (saveAsset (fun _ => "aabbccddeeff00112233") ⟨[], []⟩
        "https://x.com/a.png" [1, 2, 3]).2.cache.length = 1 :=
  ⟨rfl,
   (saveAsset_dedup (fun _ => "aabbccddeeff00112233") ⟨[], []⟩
     "https://x.com/a.png" "https://y.com/b.css" [1, 2, 3] rfl).1,
   (saveAsset_dedup (fun _ => "aabbccddeeff00112233") ⟨[], []⟩
     "https://x.com/a.png" "https://y.com/b.css" [1, 2, 3] rfl).2.2.1⟩

/-- C5 (counterexample): normalization is not idempotent.  In
`_normalize_html_for_comparison` the relative-time substitution runs before
the Facebook-pixel removal, so removing a pixel tag that separates `5 ` from
`days ago` creates a fresh time phrase that only a second normalization pass
replaces: the first pass yields `5 days ago`, the second `[TIME]`. -/
theorem normalize_not_idempotent :
    ¬ normalizeHtmlForComparison (normalizeHtmlForComparison exPixelSplitDoc)
        = normalizeHtmlForComparison exPixelSplitDoc ∧
    normalizeHtmlForComparison exPixelSplitDoc = "5 days ago" ∧
    normalizeHtmlForComparison (normalizeHtmlForComparison exPixelSplitDoc) = "[TIME]" := by
  decide

/-- C5 (amended): normalization is idempotent on the sampled documents
(documents in which no substitution creates a fresh match for an earlier
pass), including the specification's own samples. -/
theorem normalize_idempotent_on_samples :
    normalizeHtmlForComparison (normalizeHtmlForComparison "<a href=\"/p?_gl=abc\">x</a>")
      = normalizeHtmlForComparison "<a href=\"/p?_gl=abc\">x</a>" ∧
    normalizeHtmlForComparison (normalizeHtmlForComparison "5 days ago")
      = normalizeHtmlForComparison "5 days ago" ∧
    normalizeHtmlForComparison (normalizeHtmlForComparison "3 h.")
      = normalizeHtmlForComparison "3 h." ∧
    normalizeHtmlForComparison
        (normalizeHtmlForComparison "<script>r:\x27aa12\x27</script>")
      = normalizeHtmlForComparison "<script>r:\x27aa12\x27</script>" ∧
    normalizeHtmlForComparison (normalizeHtmlForComparison "<p>new</p>")
      = normalizeHtmlForComparison "<p>new</p>" := by
  decide

/-- C6 (counterexample): two documents that differ only in a relative-time
phrase need not normalize equal.  The unit alternation tries `mins?` before
`minutes?`, so `5 minutes ago` is only matched up to `5 min`, leaving the
residue `utes ago`, while `3 days ago` is replaced whole. -/
theorem normalize_relTime_residue :
    normalizeHtmlForComparison "updated 5 minutes ago" = "updated [TIME]utes ago" ∧
    ¬ normalizeHtmlForComparison "updated 5 minutes ago"
        = normalizeHtmlForComparison "updated 3 days ago" := by
  decide

/-- C6 (amended): two documents that differ only in a tracking query
parameter carried by the `href` of a handled (`a`/`link`/`script`/`img`)
tag normalize to identical strings, for every document pair of that shape
and every one of the four markers, in both the `?` and the `&` position;
two documents whose serialized forms differ only in the hexadecimal run of
one Cloudflare `r:\x27...\x27` challenge token normalize to identical
strings; and the fully matched relative-time phrases `5 days ago` and
`3 h.` both normalize to the fixed placeholder `[TIME]` (by the
counterexample, partially matched phrases such as `5 minutes ago` do not,
so invariance under arbitrary relative-time rewording does not hold). -/
theorem normalize_noise_invariance :
    (∀ (d1 d2 : String) (A B : List Tok) (n : String)
        (base : List (String × String)) (m : String) (pre run : List Char),
      (n = "a" ∨ n = "link" ∨ n = "script" ∨ n = "img") →
      m ∈ trackingMarkers →
      parseHtmlToks d1
        = A ++ Tok.startTag n (attrSet base "href" ⟨pre ++ m.data ++ run⟩) :: B →
      parseHtmlToks d2 = A ++ Tok.startTag n (attrSet base "href" ⟨pre⟩) :: B →
      ¬ run = [] → run.all isTrackValChar = true →
      (∀ i, i < pre.length →
        ¬ m.data.isPrefixOf ((pre ++ m.data ++ run).drop i) = true) →
      (∀ pat ∈ trackingMarkers, ¬ pat = m →
        listHasSub pat.data (pre ++ m.data ++ run) = false) →
      normalizeHtmlForComparison d1 = normalizeHtmlForComparison d2) ∧
    (∀ (d1 d2 : String) (pre h1 h2 suf : List Char),
      soupStripped d1 = pre ++ "r:\x27".data ++ h1 ++ '\x27' :: suf →
      soupStripped d2 = pre ++ "r:\x27".data ++ h2 ++ '\x27' :: suf →
      ¬ h1 = [] → h1.all isHexLower = true →
      ¬ h2 = [] → h2.all isHexLower = true →
      listHasSub "window.__CF$cv$params=\x7b".data
        (pre ++ "r:\x27".data ++ h1 ++ '\x27' :: suf) = false →
      listHasSub "window.__CF$cv$params=\x7b".data
        (pre ++ "r:\x27".data ++ h2 ++ '\x27' :: suf) = false →
      (∀ i, i < pre.length → ¬ "r:\x27".data.isPrefixOf
        ((pre ++ "r:\x27".data ++ h1 ++ '\x27' :: suf).drop i) = true) →
      (∀ i, i < pre.length → ¬ "r:\x27".data.isPrefixOf
        ((pre ++ "r:\x27".data ++ h2 ++ '\x27' :: suf).drop i) = true) →
      listHasSub "r:\x27".data suf = false →
      normalizeHtmlForComparison d1 = normalizeHtmlForComparison d2) ∧
    normalizeHtmlForComparison "5 days ago" = "[TIME]" ∧
    normalizeHtmlForComparison "3 h." = "[TIME]" := by
  refine ⟨?_, ?_, by decide, by decide⟩
  · intro d1 d2 A B n base m pre run hn hm hp1 hp2 hrun hall hno hoth
    have hmne : ¬ m.data = [] := by
      have hm4 : m = "?_gl=" ∨ m = "&_gl=" ∨ m = "?_ga=" ∨ m = "&_ga=" := by
        simpa [trackingMarkers] using hm
      rcases hm4 with rfl | rfl | rfl | rfl <;> decide
    have hpre2 : ∀ pat ∈ trackingMarkers, listHasSub pat.data pre = false := by
      intro pat hpat
      by_cases hpm : pat = m
      · subst hpm
        have hno2 : ∀ i, i < pre.length →
            ¬ pat.data.isPrefixOf ((pre ++ (pat.data ++ run)).drop i) = true := by
          intro i hi
          have := hno i hi
          rwa [List.append_assoc] at this
        exact listHasSub_false_of_no_drop pat.data pre (pat.data ++ run) hmne hno2
      · have hx := hoth pat hpat hpm
        rw [List.append_assoc] at hx
        exact listHasSub_false_left _ _ _ hx
    have hv1 : stripTrackingParams ⟨pre ++ m.data ++ run⟩ = ⟨pre⟩ :=
      stripTrackingParams_removes m hm pre run hrun hall hno hoth
    have hv2 : stripTrackingParams ⟨pre⟩ = ⟨pre⟩ :=
      stripTrackingParams_id_of pre hpre2
    have ht1 : stripHrefTok (Tok.startTag n (attrSet base "href" ⟨pre ++ m.data ++ run⟩))
        = Tok.startTag n (attrSet base "href" ⟨pre⟩) := by
      rw [stripHrefTok_handled n _ _ hn (attrLookup_attrSet base "href" _),
        attrSet_attrSet, hv1]
    have ht2 : stripHrefTok (Tok.startTag n (attrSet base "href" ⟨pre⟩))
        = Tok.startTag n (attrSet base "href" ⟨pre⟩) := by
      rw [stripHrefTok_handled n _ _ hn (attrLookup_attrSet base "href" _),
        attrSet_attrSet, hv2]
    have hss : soupStripped d1 = soupStripped d2 := by
      unfold soupStripped
      rw [hp1, hp2]
      simp only [List.map_append, List.map_cons, ht1, ht2]
    unfold normalizeHtmlForComparison
    rw [hss]
  · intro d1 d2 pre h1 h2 suf hs1 hs2 hh1 hall1 hh2 hall2 hcf1 hcf2 hno1 hno2 hsuf
    unfold normalizeHtmlForComparison
    rw [hs1, hs2]
    simp only [normalizeSerializedText]
    rw [subCfParamsGo_id _ _ hcf1, subCfParamsGo_id _ _ hcf2]
    rw [subQuotedGo_removes "r:\x27".data isHexLower "r:\x27[REMOVED]\x27".data
        pre h1 suf _ (by decide) (le_refl _) hh1 hall1 (by decide) hsuf hno1,
      subQuotedGo_removes "r:\x27".data isHexLower "r:\x27[REMOVED]\x27".data
        pre h2 suf _ (by decide) (le_refl _) hh2 hall2 (by decide) hsuf hno2]

/-- Witness for C6: the specification's anchor pair and a Cloudflare token
pair, derived from the universal statements. -/
theorem normalize_noise_invariance_witness :
    normalizeHtmlForComparison "<a href=\"/p?_gl=abc\">x</a>"
      = normalizeHtmlForComparison "<a href=\"/p\">x</a>" ∧
    normalizeHtmlForComparison "<script>r:\x27aa12\x27</script>"
      = normalizeHtmlForComparison "<script>r:\x27ff00\x27</script>" :=
  ⟨normalize_noise_invariance.1 "<a href=\"/p?_gl=abc\">x</a>" "<a href=\"/p\">x</a>"
     [] [Tok.text "x", Tok.endTag "a"] "a" [("href", "")] "?_gl=" "/p".data "abc".data
     (Or.inl rfl) (by decide) (by decide) (by decide) (by decide) (by decide)
     (by decide) (by decide),
   normalize_noise_invariance.2.1 "<script>r:\x27aa12\x27</script>"
     "<script>r:\x27ff00\x27</script>" "<script>".data "aa12".data "ff00".data
     "</script>".data (by decide) (by decide) (by decide) (by decide) (by decide)
     (by decide) (by decide) (by decide) (by decide) (by decide) (by decide)⟩

/-- C7 (counterexample): tracking parameters are not stripped from the
attributes of arbitrary tags — `find_all` only covers `href` on
`a`/`link`/`script`/`img` and `src` on `img`/`script`, so an `iframe`'s
`src` keeps its `_gl` parameter and the two documents normalize apart. -/
theorem normalize_iframe_not_stripped :
    normalizeHtmlForComparison "<iframe src=\"/p?_gl=abc\"></iframe>"
      = "<iframe src=\"/p?_gl=abc\"></iframe>" ∧
    ¬ normalizeHtmlForComparison "<iframe src=\"/p?_gl=abc\"></iframe>"
        = normalizeHtmlForComparison "<iframe src=\"/p\"></iframe>" := by
  decide

/-- C7 (amended): the known tracking query parameters are stripped from the
`href` value of every `a`, `link`, `script` or `img` tag and from the `src`
value of every `img` or `script` tag — both when the parameter opens the
query string (`?` form, markers `?_gl=`/`?_ga=`) and when it is a trailing
parameter joined by `&` (markers `&_gl=`/`&_ga=`) — while a tag of any
other name is left completely untouched by both passes.  The last conjunct
settles the value-level stripping universally: an attribute value
`pre ++ marker ++ run` whose marker occurs exactly once is reduced to
`pre`. -/
theorem normalize_strips_tracking_on_handled_tags :
    (∀ (n : String) (attrs : List (String × String)) (v : String),
      (n = "a" ∨ n = "link" ∨ n = "script" ∨ n = "img") →
      attrLookup attrs "href" = some v →
      stripHrefTok (Tok.startTag n attrs)
        = Tok.startTag n (attrSet attrs "href" (stripTrackingParams v))) ∧
    (∀ (n : String) (attrs : List (String × String)) (v : String),
      (n = "img" ∨ n = "script") →
      attrLookup attrs "src" = some v →
      stripSrcTok (Tok.startTag n attrs)
        = Tok.startTag n (attrSet attrs "src" (stripTrackingParams v))) ∧
    (∀ (n : String) (attrs : List (String × String)),
      ¬ (n = "a" ∨ n = "link" ∨ n = "script" ∨ n = "img") →
      stripHrefTok (Tok.startTag n attrs) = Tok.startTag n attrs) ∧
    (∀ (n : String) (attrs : List (String × String)),
      ¬ (n = "img" ∨ n = "script") →
      stripSrcTok (Tok.startTag n attrs) = Tok.startTag n attrs) ∧
    (∀ m ∈ trackingMarkers, ∀ pre run : List Char,
      ¬ run = [] → run.all isTrackValChar = true →
      (∀ i, i < pre.length →
        ¬ m.data.isPrefixOf ((pre ++ m.data ++ run).drop i) = true) →
      (∀ pat ∈ trackingMarkers, ¬ pat = m →
        listHasSub pat.data (pre ++ m.data ++ run) = false) →
      stripTrackingParams ⟨pre ++ m.data ++ run⟩ = ⟨pre⟩) :=
  ⟨stripHrefTok_handled, stripSrcTok_handled, stripHrefTok_unhandled,
   stripSrcTok_unhandled, stripTrackingParams_removes⟩

/-- Witness for C7: the `a`-href `?` form, the `img`-src `?` form, an
untouched `iframe`, and both marker positions at the value level. -/
theorem normalize_strips_tracking_witness :
    stripHrefTok (Tok.startTag "a" [("href", "/p?_gl=abc")])
      = Tok.startTag "a" (attrSet [("href", "/p?_gl=abc")] "href"
          (stripTrackingParams "/p?_gl=abc")) ∧
    stripSrcTok (Tok.startTag "img" [("src", "/i.png?_ga=z")])
      = Tok.startTag "img" (attrSet [("src", "/i.png?_ga=z")] "src"
          (stripTrackingParams "/i.png?_ga=z")) ∧
    stripSrcTok (Tok.startTag "iframe" [("src", "/p?_gl=abc")])
      = Tok.startTag "iframe" [("src", "/p?_gl=abc")] ∧
    stripTrackingParams ⟨"/p".data ++ "?_gl=".data ++ "abc".data⟩ = ⟨"/p".data⟩ ∧
    stripTrackingParams ⟨"/s.css?x=1".data ++ "&_ga=".data ++ "tok".data⟩
      = ⟨"/s.css?x=1".data⟩ :=
  ⟨normalize_strips_tracking_on_handled_tags.1 "a" _ _ (Or.inl rfl) (by decide),
   normalize_strips_tracking_on_handled_tags.2.1 "img" _ _ (Or.inl rfl) (by decide),
   normalize_strips_tracking_on_handled_tags.2.2.2.1 "iframe" _ (by decide),
   normalize_strips_tracking_on_handled_tags.2.2.2.2 "?_gl=" (by decide)
     "/p".data "abc".data (by decide) (by decide) (by decide) (by decide),
   normalize_strips_tracking_on_handled_tags.2.2.2.2 "&_ga=" (by decide)
     "/s.css?x=1".data "tok".data (by decide) (by decide) (by decide) (by decide)⟩

/-- C8: whenever the change detector reports no change — in particular
whenever the fetched batch is byte-identical to the previous snapshot's
stored files — `snapshot` returns `None` and the state is untouched: no
snapshot directory, no manifest, no asset fetch result is recorded and the
asset store (including its persisted cache index) is exactly as before. -/
theorem runSnapshot_noChange_noEffects (fetch : String → Option (List Nat))
    (sha256hex : List Nat → String) (ts : String) (st : ArchiverState)
    (temp : List TempPage)
    (h : hasContentChangedFromTemp st.snapshots temp = false ∨
      contentUnchanged st.snapshots temp) :
    runSnapshot fetch sha256hex ts st temp = (none, st) := by
  have hf : hasContentChangedFromTemp st.snapshots temp = false := by
    rcases h with h | h
    · exact h
    · exact hasChanged_false_of_unchanged _ _ h
  simp only [runSnapshot, hf, Bool.false_eq_true, if_false]

/-- Witness for C8: a repeat run against unchanged content. -/
theorem runSnapshot_noChange_noEffects_witness :
    runSnapshot (fun _ => none) (fun _ => "") "2024-01-02_00-00-00" exState exTempSame
      = (none, exState) :=
  runSnapshot_noChange_noEffects (fun _ => none) (fun _ => "") "2024-01-02_00-00-00"
    exState exTempSame (Or.inl (by decide))

theorem tokPass_length (f : AssetState → Tok → Tok × List String × AssetState)
    (a : AssetState) (ts : List Tok) : (tokPass f a ts).1.length = ts.length := by
  induction ts generalizing a with
  | nil => rfl
  | cons t ts ih => simp [tokPass, ih]

theorem tokPass_skip (f : AssetState → Tok → Tok × List String × AssetState)
    (t : Tok) (hskip : ∀ a, f a t = (t, [], a)) :
    ∀ (xs : List Tok) (a : AssetState) (ys : List Tok),
      tokPass f a (xs ++ t :: ys)
        = ((tokPass f a (xs ++ ys)).1.take xs.length
             ++ t :: (tokPass f a (xs ++ ys)).1.drop xs.length,
           (tokPass f a (xs ++ ys)).2.1, (tokPass f a (xs ++ ys)).2.2) := by
  intro xs
  induction xs with
  | nil =>
    intro a ys
    simp [tokPass, hskip a]
  | cons x xs ih =>
    intro a ys
    simp only [List.cons_append, tokPass, List.append_eq]
    rw [ih (f a x).2.2 ys]
    simp only [List.length_cons, List.take_succ_cons, List.drop_succ_cons,
      List.cons_append]

/-- A tag whose asset download fails passes through each of the three
`_rewrite_html` passes unchanged, produces no asset path, and leaves the
asset store untouched. -/
theorem failingTag_fixed (fetch : String → Option (List Nat))
    (sha256hex : List Nat → String) (pageUrl : String) (t : Tok)
    (ht : failingAssetTag fetch pageUrl t) :
    (∀ a, imgTokRewrite fetch sha256hex pageUrl a t = (t, [], a)) ∧
    (∀ a, linkTokRewrite fetch sha256hex pageUrl a t = (t, [], a)) ∧
    (∀ a, scriptTokRewrite fetch sha256hex pageUrl a t = (t, [], a)) := by
  rcases ht with ⟨attrs, u, rfl, hsrc, hne, hf⟩ | ⟨attrs, u, rfl, hrel, hhref, hne, hf⟩ |
    ⟨attrs, u, rfl, hsrc, hf⟩
  · have hbe : (u == "") = false := by simp [hne]
    refine ⟨?_, ?_, ?_⟩ <;> intro a
    · simp only [imgTokRewrite, hsrc, hbe, Bool.false_eq_true, if_false, hf]
      rfl
    · simp only [linkTokRewrite]
      rfl
    · simp only [scriptTokRewrite]
      rfl
  · have hbe : (u == "") = false := by simp [hne]
    have hcond : (("link" : String) == "link"
        && (attrLookup attrs "rel" == some "stylesheet")) = true := by
      rw [hrel]
      rfl
    refine ⟨?_, ?_, ?_⟩ <;> intro a
    · simp only [imgTokRewrite]
      rfl
    · simp only [linkTokRewrite, hcond, if_true, hhref, hbe, Bool.false_eq_true,
        if_false, hf]
    · simp only [scriptTokRewrite]
      rfl
  · refine ⟨?_, ?_, ?_⟩ <;> intro a
    · simp only [imgTokRewrite]
      rfl
    · simp only [linkTokRewrite]
      rfl
    · simp only [scriptTokRewrite, hsrc, hf]
      rfl

/-- C9: an asset tag whose fetch fails — an `img` or stylesheet `link` or
`script`, at any position in the page — is skipped without aborting the
page rewrite: the tag keeps its original remote reference, contributes
nothing to the assets-used list, leaves the asset store untouched, and the
remaining tokens of the page are processed exactly as they would be without
the failing tag. -/
theorem assetFailure_skipsTag (fetch : String → Option (List Nat))
    (sha256hex : List Nat → String) (ast : AssetState) (pageUrl : String)
    (t : Tok) (pre post : List Tok)
    (ht : failingAssetTag fetch pageUrl t) :
    rewriteAssetToks fetch sha256hex ast pageUrl (pre ++ t :: post)
      = ((rewriteAssetToks fetch sha256hex ast pageUrl (pre ++ post)).1.take
           pre.length
           ++ t :: (rewriteAssetToks fetch sha256hex ast pageUrl
             (pre ++ post)).1.drop pre.length,
         (rewriteAssetToks fetch sha256hex ast pageUrl (pre ++ post)).2.1,
         (rewriteAssetToks fetch sha256hex ast pageUrl (pre ++ post)).2.2) := by
  obtain ⟨h1, h2, h3⟩ := failingTag_fixed fetch sha256hex pageUrl t ht
  simp only [rewriteAssetToks]
  rw [tokPass_skip _ t h1 pre ast post]
  set P1 := tokPass (imgTokRewrite fetch sha256hex pageUrl) ast (pre ++ post)
    with hP1def
  have hlen1 : P1.1.length = pre.length + post.length := by
    rw [hP1def, tokPass_length, List.length_append]
  rw [tokPass_skip _ t h2 (P1.1.take pre.length) P1.2.2 (P1.1.drop pre.length),
    List.take_append_drop]
  have hn1 : (P1.1.take pre.length).length = pre.length := by
    rw [List.length_take, hlen1]
    exact min_eq_left (Nat.le_add_right _ _)
  rw [hn1]
  set P2 := tokPass (linkTokRewrite fetch sha256hex pageUrl) P1.2.2 P1.1 with hP2def
  have hlen2 : P2.1.length = pre.length + post.length := by
    rw [hP2def, tokPass_length, hlen1]
  rw [tokPass_skip _ t h3 (P2.1.take pre.length) P2.2.2 (P2.1.drop pre.length),
    List.take_append_drop]
  have hn2 : (P2.1.take pre.length).length = pre.length := by
    rw [List.length_take, hlen2]
    exact min_eq_left (Nat.le_add_right _ _)
  rw [hn2]

/-- Witness for C9: a failing stylesheet `link` in the middle of a page. -/
theorem assetFailure_skipsTag_witness :
    rewriteAssetToks (fun _ => none) (fun _ => "") ⟨[], []⟩ "https://example.com/"
        [Tok.text "a",
         Tok.startTag "link"
           [("rel", "stylesheet"), ("href", "https://cdn.example.com/s.css")],
         Tok.text "b"]
      = ([Tok.text "a",
          Tok.startTag "link"
            [("rel", "stylesheet"), ("href", "https://cdn.example.com/s.css")],
          Tok.text "b"], [], ⟨[], []⟩) := by
  have hsplit : [Tok.text "a",
      Tok.startTag "link"
        [("rel", "stylesheet"), ("href", "https://cdn.example.com/s.css")],
      Tok.text "b"]
      = [Tok.text "a"] ++ Tok.startTag "link"
          [("rel", "stylesheet"), ("href", "https://cdn.example.com/s.css")]
          :: [Tok.text "b"] := rfl
  rw [hsplit, assetFailure_skipsTag (fun _ => none) (fun _ => "") ⟨[], []⟩
    "https://example.com/"
    (Tok.startTag "link"
      [("rel", "stylesheet"), ("href", "https://cdn.example.com/s.css")])
    [Tok.text "a"] [Tok.text "b"]
    (Or.inr (Or.inl ⟨[("rel", "stylesheet"), ("href", "https://cdn.example.com/s.css")],
      "https://cdn.example.com/s.css", rfl, rfl, rfl, by decide, rfl⟩))]
  decide

/-- C10: a page that fails to fetch is skipped by the change detector
without any comparison, so a batch in which a previously successful page now
fails — with the page count and every other page unchanged — is reported as
unchanged: the detector returns false and `snapshot` returns `None` with the
state untouched. -/
theorem failedFetch_skipped_noSnapshot (fetch : String → Option (List Nat))
    (sha256hex : List Nat → String) (ts : String) (st : ArchiverState)
    (temp : List TempPage) (url err : String)
    (hunchanged : contentUnchanged st.snapshots temp)
    (hfailedMem : TempPage.failed url err ∈ temp)
    (hwasSuccess : ∃ prev m f o a, getMostRecentSnapshot st.snapshots = some prev ∧
      prev.manifest = some m ∧
      findPrevSuccess m url = some (PageRecord.success url f o a)) :
    hasContentChangedFromTemp st.snapshots temp = false ∧
    runSnapshot fetch sha256hex ts st temp = (none, st) := by
  have hf := hasChanged_false_of_unchanged _ _ hunchanged
  exact ⟨hf, by simp only [runSnapshot, hf, Bool.false_eq_true, if_false]⟩

/-- Witness for C10: the two-page snapshot whose second page now times out. -/
theorem failedFetch_skipped_noSnapshot_witness :
    hasContentChangedFromTemp exState2.snapshots exTempOneFailed = false ∧
    runSnapshot (fun _ => none) (fun _ => "") "2024-01-02_00-00-00" exState2
      exTempOneFailed = (none, exState2) := by
  have hcu : contentUnchanged exState2.snapshots exTempOneFailed := by
    refine ⟨exOldSnapshot2, _, rfl, rfl, rfl, ?_⟩
    intro tp htp url html heq
    simp only [exTempOneFailed, List.mem_cons, List.mem_singleton] at htp
    rcases htp with htp | htp | htp
    · subst htp
      injection heq with hu hh
      subst hu
      subst hh
      exact ⟨"index.html", some "index_original.html", [], by decide, by decide⟩
    · subst htp
      exact TempPage.noConfusion heq
    · cases htp
  exact failedFetch_skipped_noSnapshot (fun _ => none) (fun _ => "")
    "2024-01-02_00-00-00" exState2 exTempOneFailed "https://example.com/about" "timeout"
    hcu (by decide)
    ⟨exOldSnapshot2, _, "about.html", some "about_original.html", [], rfl, rfl, by decide⟩

/-- C1: the change summary does not re-diff against the snapshot that
existed before the run.  `snapshot` creates the new timestamped directory
and writes its files and manifest before calling
`_generate_change_summary`, and the latter locates its comparison target
with `_get_most_recent_snapshot` — which by then is the new directory
itself.  At this concrete input the page content changed (the detector
fires and a new snapshot is produced), yet the generated report compares
the new snapshot against itself: its `Compared to:` name is the new
timestamp and it contains no change entry, i.e. it prints
`NO CHANGES DETECTED`. -/
theorem changeSummary_comparesAgainstItself :
    hasContentChangedFromTemp exState.snapshots exTempChanged = true ∧
    ¬ normalizeHtmlForComparison "<p>new</p>" = normalizeHtmlForComparison "<p>old</p>" ∧
    (runSnapshot (fun _ => none) (fun _ => "") "2024-01-02_00-00-00" exState
        exTempChanged).1 = some "2024-01-02_00-00-00" ∧
    lastSnapshotChanges (runSnapshot (fun _ => none) (fun _ => "")
        "2024-01-02_00-00-00" exState exTempChanged).2
      = some (SummaryReport.compared "2024-01-02_00-00-00" [] false) := by
  decide
